import Mathlib

set_option maxRecDepth 20000

/-!
Formal model (shallow embedding) of the aidb SQL schema-inference and
dialect-normalization engine: `src/lib/schema-extractor.ts` and
`src/lib/sql-executor.ts`. Strings are modelled as `List Char`; the
JavaScript regular expressions used by the source are modelled as explicit
matching functions with the same semantics on the inputs considered
(leftmost match, greedy and lazy quantifiers, the /i and /g flags).
-/

/-- Whitespace: the regex class \s and JavaScript trim, restricted to the
ASCII whitespace occurring in SQL dumps. -/
def isWsC (c : Char) : Bool := c == ' ' || c == '\t' || c == '\n' || c == '\r'

/-- Word characters: the regex class \w, i.e. [A-Za-z0-9_]. -/
def isWordC (c : Char) : Bool := c.isAlphanum || c == '_'

/-- First character of an identifier: the regex class [a-zA-Z_]. -/
def isNameStartC (c : Char) : Bool := c.isAlpha || c == '_'

def isDigitC (c : Char) : Bool := c.isDigit

def isAlphaC (c : Char) : Bool := c.isAlpha

/-- Case-insensitive character comparison (the regex /i flag), ASCII. -/
def ciC (a b : Char) : Bool := a.toUpper == b.toUpper

/-- JavaScript String.prototype.trim, both ends. -/
def trimL (l : List Char) : List Char :=
  ((l.dropWhile isWsC).reverse.dropWhile isWsC).reverse

/-- Case-sensitive prefix test (pattern first). -/
def startsWithL : List Char → List Char → Bool
  | [], _ => true
  | _ :: _, [] => false
  | p :: ps, c :: cs => p == c && startsWithL ps cs

/-- Case-insensitive prefix test (pattern first). -/
def ciStartsWithL : List Char → List Char → Bool
  | [], _ => true
  | _ :: _, [] => false
  | p :: ps, c :: cs => ciC p c && ciStartsWithL ps cs

/-- JavaScript String.prototype.includes: substring occurrence. -/
def hasSub (pat : List Char) : List Char → Bool
  | [] => startsWithL pat []
  | c :: cs => startsWithL pat (c :: cs) || hasSub pat cs

/-- Number of positions where the pattern occurs case-insensitively. -/
def countOccCi (pat : List Char) : List Char → Nat
  | [] => 0
  | c :: cs =>
    if ciStartsWithL pat (c :: cs) then countOccCi pat cs + 1 else countOccCi pat cs

/-- Strip a case-insensitive literal pattern, returning the rest. -/
def ciPrefixL : List Char → List Char → Option (List Char)
  | [], l => some l
  | _ :: _, [] => none
  | p :: ps, c :: cs => if ciC p c then ciPrefixL ps cs else none

/-- The regex \s*: greedy whitespace skip. -/
def wsStar (l : List Char) : List Char := l.dropWhile isWsC

/-- The regex \s+: at least one whitespace character, consumed greedily. -/
def wsPlus : List Char → Option (List Char)
  | [] => none
  | c :: cs => if isWsC c then some (cs.dropWhile isWsC) else none

/-- An optional literal character (the regex x?). -/
def skipOpt (x : Char) : List Char → List Char
  | [] => []
  | c :: cs => if c == x then cs else c :: cs

/-- An identifier: [a-zA-Z_][a-zA-Z0-9_]* (captured text, rest). -/
def takeName : List Char → List Char × List Char
  | [] => ([], [])
  | c :: cs =>
    if isNameStartC c then (c :: cs.takeWhile isWordC, cs.dropWhile isWordC)
    else ([], c :: cs)

/-- JavaScript String.prototype.split on a single character. -/
def splitOnC (sep : Char) : List Char → List (List Char)
  | [] => [[]]
  | c :: cs =>
    if c == sep then [] :: splitOnC sep cs
    else
      match splitOnC sep cs with
      | [] => [[c]]
      | h :: t => (c :: h) :: t

/-- JavaScript String.prototype.split on the two-character separator used by
createTablesFromInserts: a backtick followed by a comma. -/
def splitOnBtComma : List Char → List (List Char)
  | [] => [[]]
  | [c] => [[c]]
  | c :: d :: rest =>
    if c == '`' && d == ',' then [] :: splitOnBtComma rest
    else
      match splitOnBtComma (d :: rest) with
      | [] => [[c]]
      | h :: t => (c :: h) :: t

def intercalateL (sep : List Char) : List (List Char) → List Char
  | [] => []
  | [x] => x
  | x :: y :: rest => x ++ sep ++ intercalateL sep (y :: rest)

/-- Split at the first occurrence of the two-character sequence a b,
returning the part before and the part after it. -/
def splitFirst2 (a b : Char) : List Char → Option (List Char × List Char)
  | [] => none
  | [_] => none
  | c :: d :: rest =>
    if c == a && d == b then some ([], rest)
    else (splitFirst2 a b (d :: rest)).map (fun p => (c :: p.1, p.2))

def mapIdxFrom (f : Nat → α → β) : Nat → List α → List β
  | _, [] => []
  | i, x :: xs => f i x :: mapIdxFrom f (i + 1) xs

/-! Data model of schema-extractor.ts (TableSchema / DatabaseSchema). -/

structure ColumnSchema where
  name : String
  type : String
  nullable : Bool
  primaryKey : Bool
  foreignKey : Option (String × String)
deriving DecidableEq, Repr

structure TableSchema where
  name : String
  columns : List ColumnSchema
  indexes : List String
deriving DecidableEq, Repr

structure Relationship where
  fromTable : String
  fromColumn : String
  toTable : String
  toColumn : String
  relType : String
deriving DecidableEq, Repr

structure SchemaMetadata where
  extractedAt : String
  fileName : String
  totalTables : Nat
deriving DecidableEq, Repr

structure DatabaseSchema where
  tables : List TableSchema
  relationships : List Relationship
  metadata : SchemaMetadata
deriving DecidableEq, Repr

/-! Model of extractTables (schema-extractor.ts lines 56-78): the regex
CREATE\s+TABLE\s+(?:IF\s+NOT\s+EXISTS\s+)?`?([a-zA-Z_][a-zA-Z0-9_]*)`?\s*\(([\s\S]*?)\);
with the /gi flags, scanned over the whole dump. -/

/-- The optional IF\s+NOT\s+EXISTS\s+ group of the CREATE TABLE regex. -/
def tryIfNotExists (l : List Char) : Option (List Char) :=
  (ciPrefixL "IF".toList l).bind fun r1 =>
    (wsPlus r1).bind fun r2 =>
      (ciPrefixL "NOT".toList r2).bind fun r3 =>
        (wsPlus r3).bind fun r4 =>
          (ciPrefixL "EXISTS".toList r4).bind fun r5 => wsPlus r5

/-- The tail `?(name)`?\s*\( body \); of the CREATE TABLE regex: the lazy
body capture stops at the first closing-parenthesis-semicolon sequence.
Returns (table name, body, rest of the input). -/
def matchNameBody (l : List Char) : Option (List Char × List Char × List Char) :=
  let l1 := skipOpt '`' l
  match takeName l1 with
  | ([], _) => none
  | (name, l2) =>
    match wsStar (skipOpt '`' l2) with
    | '(' :: l5 => (splitFirst2 ')' ';' l5).map (fun p => (name, p.1, p.2))
    | _ => none

/-- After CREATE\s+TABLE\s+ : the optional IF NOT EXISTS group backtracks as
in JavaScript (if taking it makes the remainder fail, it is dropped). -/
def matchAfterTable (r4 : List Char) : Option (List Char × List Char × List Char) :=
  match tryIfNotExists r4 with
  | some r5 =>
    match matchNameBody r5 with
    | some x => some x
    | none => matchNameBody r4
  | none => matchNameBody r4

/-- The full CREATE TABLE regex applied at the start of the input. -/
def matchCreateAt (cs : List Char) : Option (List Char × List Char × List Char) :=
  match ciPrefixL "CREATE".toList cs with
  | none => none
  | some r1 =>
    match wsPlus r1 with
    | none => none
    | some r2 =>
      match ciPrefixL "TABLE".toList r2 with
      | none => none
      | some r3 =>
        match wsPlus r3 with
        | none => none
        | some r4 => matchAfterTable r4

/-- Leftmost match: regex exec scanning from each position. -/
def firstCreateMatch : List Char → Option (List Char × List Char × List Char)
  | [] => none
  | c :: cs =>
    match matchCreateAt (c :: cs) with
    | some x => some x
    | none => firstCreateMatch cs

/-- Repeated global matching (the /g flag), resuming after each match.
Fuel bounds the recursion; every match consumes at least one character, so
fuel = input length + 1 is always enough. -/
def scanCreates : Nat → List Char → List (List Char × List Char)
  | 0, _ => []
  | fuel + 1, cs =>
    match firstCreateMatch cs with
    | none => []
    | some (n, b, rest) => (n, b) :: scanCreates fuel rest

/-! Model of extractColumns (schema-extractor.ts lines 80-118). -/

/-- The optional size specifier \(\d+(?:,\s*\d+)?\) of the column-type
capture; returns the captured text (possibly empty) and the rest. -/
def matchSizeSpec (l : List Char) : List Char × List Char :=
  match l with
  | '(' :: r =>
    let ds := r.takeWhile isDigitC
    let r1 := r.dropWhile isDigitC
    if ds.isEmpty then ([], l)
    else
      match r1 with
      | ')' :: r2 => ('(' :: (ds ++ [')']), r2)
      | ',' :: r2 =>
        let sp := r2.takeWhile isWsC
        let r3 := r2.dropWhile isWsC
        let ds2 := r3.takeWhile isDigitC
        let r4 := r3.dropWhile isDigitC
        if ds2.isEmpty then ([], l)
        else
          match r4 with
          | ')' :: r5 => ('(' :: (ds ++ ',' :: (sp ++ ds2 ++ [')'])), r5)
          | _ => ([], l)
      | _ => ([], l)
  | _ => ([], l)

/-- The column-definition regex
`?([a-zA-Z_][a-zA-Z0-9_]*)`?\s+([a-zA-Z]+(?:\(\d+(?:,\s*\d+)?\))?)\s*(.*)
applied at the start of the input; the dot of (.*) stops at a line
terminator as in JavaScript. Captures (name, type, trailing constraints). -/
def matchColumnAt (l : List Char) : Option (List Char × List Char × List Char) :=
  let l1 := skipOpt '`' l
  match takeName l1 with
  | ([], _) => none
  | (name, l2) =>
    match wsPlus (skipOpt '`' l2) with
    | none => none
    | some l4 =>
      let ty := l4.takeWhile isAlphaC
      if ty.isEmpty then none
      else
        let (ty2, l6) := matchSizeSpec (l4.dropWhile isAlphaC)
        some (name, ty ++ ty2, (wsStar l6).takeWhile (fun c => !(c == '\n' || c == '\r')))

/-- Unanchored search: JavaScript String.prototype.match finds the match at
the leftmost position where the pattern succeeds. -/
def searchColumn : List Char → Option (List Char × List Char × List Char)
  | [] => none
  | c :: cs =>
    match matchColumnAt (c :: cs) with
    | some x => some x
    | none => searchColumn cs

/-- The foreign-key regex REFERENCES\s+`?(name)`?\s*\(\s*`?(name)`?\s*\)
applied at the start of the input. -/
def matchFKAt (l : List Char) : Option (List Char × List Char) :=
  match ciPrefixL "REFERENCES".toList l with
  | none => none
  | some r1 =>
    match wsPlus r1 with
    | none => none
    | some r2 =>
      match takeName (skipOpt '`' r2) with
      | ([], _) => none
      | (tname, r4) =>
        match wsStar (skipOpt '`' r4) with
        | '(' :: r6 =>
          match takeName (skipOpt '`' (wsStar r6)) with
          | ([], _) => none
          | (cname, r8) =>
            match wsStar (skipOpt '`' r8) with
            | ')' :: _ => some (tname, cname)
            | _ => none
        | _ => none

def searchFK : List Char → Option (List Char × List Char)
  | [] => none
  | c :: cs =>
    match matchFKAt (c :: cs) with
    | some x => some x
    | none => searchFK cs

/-- Model of extractForeignKey (schema-extractor.ts lines 120-131). -/
def extractForeignKey (constraints : List Char) : Option (String × String) :=
  (searchFK constraints).map (fun p => (p.1.asString, p.2.asString))

/-- Model of extractColumns (schema-extractor.ts lines 80-118): the table
body is split on every comma, pieces starting with a structural-constraint
keyword are skipped (case-sensitively), and each remaining piece is searched
for the column regex. -/
def extractColumnsL (body : List Char) : List ColumnSchema :=
  (splitOnC ',' body).filterMap (fun piece =>
    let t := trimL piece
    if startsWithL "PRIMARY KEY".toList t || startsWithL "FOREIGN KEY".toList t ||
       startsWithL "UNIQUE".toList t || startsWithL "INDEX".toList t ||
       startsWithL "KEY".toList t || startsWithL "CONSTRAINT".toList t then none
    else
      match searchColumn t with
      | none => none
      | some (n, ty, constr) =>
        some { name := n.asString
               type := ty.asString
               nullable := !(hasSub "NOT NULL".toList (constr.map Char.toUpper))
               primaryKey := hasSub "PRIMARY KEY".toList (constr.map Char.toUpper)
               foreignKey := extractForeignKey constr })

/-! Model of extractIndexes (schema-extractor.ts lines 133-145): the regex
CREATE\s+(?:UNIQUE\s+)?INDEX\s+(?:IF\s+NOT\s+EXISTS\s+)?`?(name)`?\s+ON\s+`?tableName`?
with /gi, the table name interpolated literally. -/

def matchIndexName (tname : List Char) (l : List Char) : Option (List Char × List Char) :=
  match takeName (skipOpt '`' l) with
  | ([], _) => none
  | (iname, l2) =>
    match wsPlus (skipOpt '`' l2) with
    | none => none
    | some l3 =>
      match ciPrefixL "ON".toList l3 with
      | none => none
      | some l4 =>
        match wsPlus l4 with
        | none => none
        | some l5 =>
          match ciPrefixL tname (skipOpt '`' l5) with
          | none => none
          | some l7 => some (iname, skipOpt '`' l7)

def matchIndexFromKeyword (tname : List Char) (r : List Char) : Option (List Char × List Char) :=
  match ciPrefixL "INDEX".toList r with
  | none => none
  | some i1 =>
    match wsPlus i1 with
    | none => none
    | some i2 =>
      match tryIfNotExists i2 with
      | some i3 =>
        match matchIndexName tname i3 with
        | some x => some x
        | none => matchIndexName tname i2
      | none => matchIndexName tname i2

def matchIndexAt (tname : List Char) (cs : List Char) : Option (List Char × List Char) :=
  match ciPrefixL "CREATE".toList cs with
  | none => none
  | some r1 =>
    match wsPlus r1 with
    | none => none
    | some r2 =>
      match ciPrefixL "UNIQUE".toList r2 with
      | some u1 =>
        match wsPlus u1 with
        | some u2 =>
          match matchIndexFromKeyword tname u2 with
          | some x => some x
          | none => matchIndexFromKeyword tname r2
        | none => matchIndexFromKeyword tname r2
      | none => matchIndexFromKeyword tname r2

def firstIndexMatch (tname : List Char) : List Char → Option (List Char × List Char)
  | [] => none
  | c :: cs =>
    match matchIndexAt tname (c :: cs) with
    | some x => some x
    | none => firstIndexMatch tname cs

def scanIndexes (tname : List Char) : Nat → List Char → List (List Char)
  | 0, _ => []
  | fuel + 1, cs =>
    match firstIndexMatch tname cs with
    | none => []
    | some (iname, rest) => iname :: scanIndexes tname fuel rest

def extractIndexesL (content tname : List Char) : List String :=
  (scanIndexes tname (content.length + 1) content).map List.asString

/-- Model of extractTables (schema-extractor.ts lines 56-78): one TableSchema
per regex match, in match order. -/
def extractTablesL (content : List Char) : List TableSchema :=
  (scanCreates (content.length + 1) content).map (fun p =>
    { name := p.1.asString
      columns := extractColumnsL p.2
      indexes := extractIndexesL content p.1 })

def extractTables (sqlContent : String) : List TableSchema :=
  extractTablesL sqlContent.toList

/-- Model of loadDatabaseSchema (schema-extractor.ts lines 165-174): the file
read and JSON.parse are external effects modelled as Except-valued inputs;
the try/catch that returns null on any failure is modelled by Option. -/
def loadDatabaseSchema (readFileResult : Except String String)
    (parseJson : String → Except String DatabaseSchema) : Option DatabaseSchema :=
  match readFileResult with
  | .error _ => none
  | .ok content =>
    match parseJson content with
    | .error _ => none
    | .ok schema => some schema

/-! Model of SQLExecutor.executeQuery (sql-executor.ts lines 15-46). -/

/-- Result fields of sqlite3 run (this.changes, this.lastID). -/
structure RunResult where
  changes : Nat
  lastID : Nat
deriving DecidableEq, Repr

/-- The resolved value of executeQuery: a row list for the read path, or the
summary object of the mutation path. -/
inductive ExecResult (α : Type) where
  | rows (rs : List α)
  | runInfo (changes : Nat) (lastID : Nat) (message : String)
deriving DecidableEq, Repr

/-- The read classification of executeQuery: the trimmed, upper-cased query
begins with SELECT, WITH or PRAGMA. -/
def isReadQuery (query : String) : Bool :=
  let t := (trimL query.toList).map Char.toUpper
  startsWithL "SELECT".toList t || startsWithL "WITH".toList t ||
    startsWithL "PRAGMA".toList t

/-- Model of executeQuery: the store's all/run callbacks are abstract
parameters; a callback error is the rejected promise. -/
def executeQuery (all : String → Except String (List α))
    (run : String → Except String RunResult) (query : String) :
    Except String (ExecResult α) :=
  if isReadQuery query then (all query).map ExecResult.rows
  else
    (run query).map (fun r =>
      ExecResult.runInfo r.changes r.lastID
        ("Query executed successfully. " ++ toString r.changes ++ " row(s) affected."))

/-! Model of the statement splitting of initializeDatabase
(sql-executor.ts lines 94-110). -/

def keepStatement (stmt : List Char) : Bool :=
  !stmt.isEmpty &&
    !(startsWithL ['-', '-'] stmt && !hasSub "CREATE".toList stmt &&
      !hasSub "INSERT".toList stmt)

def keepLine (line : List Char) : Bool :=
  !startsWithL ['-', '-'] (trimL line) || hasSub "CREATE".toList line ||
    hasSub "INSERT".toList line

def stripCommentLines (stmt : List Char) : List Char :=
  trimL (intercalateL ['\n'] ((splitOnC '\n' stmt).filter keepLine))

/-- Model of the split/trim/filter pipeline of initializeDatabase: split on
every semicolon, trim, drop empty statements and pure comment blocks, strip
comment-only lines, drop what became empty. -/
def splitStatements (sqlContent : String) : List String :=
  (((((splitOnC ';' sqlContent.toList).map trimL).filter keepStatement).map
      stripCommentLines).filter (fun s => !s.isEmpty)).map List.asString

/-- Model of the test /CREATE\s+TABLE/i of initializeDatabase line 82. -/
def hasCreateTableAt (l : List Char) : Bool :=
  (match ciPrefixL "CREATE".toList l with
   | none => none
   | some r1 =>
     match wsPlus r1 with
     | none => none
     | some r2 => ciPrefixL "TABLE".toList r2).isSome

def hasCreateTableRe : List Char → Bool
  | [] => false
  | c :: cs => hasCreateTableAt (c :: cs) || hasCreateTableRe cs

/-! Model of convertMySQLToSQLite (sql-executor.ts lines 217-255): a chain
of global regex replacements applied in source order. -/

/-- Generic global replacement (String.prototype.replace with /g): at each
position try the matcher; on a match emit its replacement and resume after
the matched text, otherwise keep the character. Every matcher used consumes
at least one character, so fuel = input length + 1 always suffices. -/
def replaceG (m : List Char → Option (List Char × List Char)) :
    Nat → List Char → List Char
  | 0, l => l
  | _ + 1, [] => []
  | fuel + 1, c :: cs =>
    match m (c :: cs) with
    | some (rep, rest) => rep ++ replaceG m fuel rest
    | none => c :: replaceG m fuel cs

def runReplace (m : List Char → Option (List Char × List Char)) (l : List Char) :
    List Char :=
  replaceG m (l.length + 1) l

/-- A case-insensitive literal pattern with a fixed replacement. -/
def mLit (pat rep : List Char) (l : List Char) : Option (List Char × List Char) :=
  (ciPrefixL pat l).map (fun r => (rep, r))

/-- ENGINE=\w+\s* (removed). -/
def mEngine (l : List Char) : Option (List Char × List Char) :=
  match ciPrefixL "ENGINE=".toList l with
  | none => none
  | some r =>
    if (r.takeWhile isWordC).isEmpty then none
    else some ([], (r.dropWhile isWordC).dropWhile isWsC)

/-- DEFAULT CHARSET=\w+\s* (removed). -/
def mCharset (l : List Char) : Option (List Char × List Char) :=
  match ciPrefixL "DEFAULT CHARSET=".toList l with
  | none => none
  | some r =>
    if (r.takeWhile isWordC).isEmpty then none
    else some ([], (r.dropWhile isWordC).dropWhile isWsC)

/-- AUTO_INCREMENT=\d+\s* (removed). -/
def mAutoIncEq (l : List Char) : Option (List Char × List Char) :=
  match ciPrefixL "AUTO_INCREMENT=".toList l with
  | none => none
  | some r =>
    if (r.takeWhile isDigitC).isEmpty then none
    else some ([], (r.dropWhile isDigitC).dropWhile isWsC)

/-- A sized type such as int\(\d+\) (pattern, fixed replacement). -/
def mTypeParen (pat rep : List Char) (l : List Char) : Option (List Char × List Char) :=
  match ciPrefixL pat l with
  | none => none
  | some r =>
    match r with
    | '(' :: r1 =>
      if (r1.takeWhile isDigitC).isEmpty then none
      else
        match r1.dropWhile isDigitC with
        | ')' :: r2 => some (rep, r2)
        | _ => none
    | _ => none

/-- (\`\w+\`)\s+INTEGER\s+NOT NULL\s+AUTO_INCREMENT, replaced by the
captured column name followed by INTEGER PRIMARY KEY AUTOINCREMENT. -/
def mCollapse (l : List Char) : Option (List Char × List Char) :=
  match l with
  | '`' :: r =>
    let w := r.takeWhile isWordC
    if w.isEmpty then none
    else
      match r.dropWhile isWordC with
      | '`' :: r1 =>
        match wsPlus r1 with
        | none => none
        | some r2 =>
          match ciPrefixL "INTEGER".toList r2 with
          | none => none
          | some r3 =>
            match wsPlus r3 with
            | none => none
            | some r4 =>
              match ciPrefixL "NOT NULL".toList r4 with
              | none => none
              | some r5 =>
                match wsPlus r5 with
                | none => none
                | some r6 =>
                  match ciPrefixL "AUTO_INCREMENT".toList r6 with
                  | none => none
                  | some r7 =>
                    some ('`' :: (w ++ '`' :: " INTEGER PRIMARY KEY AUTOINCREMENT".toList), r7)
      | _ => none
  | _ => none

/-- ,\s*PRIMARY KEY\s*\([^)]+\) (removed). -/
def mPkConstraint (l : List Char) : Option (List Char × List Char) :=
  match l with
  | ',' :: r =>
    match ciPrefixL "PRIMARY KEY".toList (r.dropWhile isWsC) with
    | none => none
    | some r2 =>
      match r2.dropWhile isWsC with
      | '(' :: r4 =>
        if (r4.takeWhile (fun c => !(c == ')'))).isEmpty then none
        else
          match r4.dropWhile (fun c => !(c == ')')) with
          | ')' :: r5 => some ([], r5)
          | _ => none
      | _ => none
  | _ => none

/-- ,\s*\) (replaced by the closing parenthesis). -/
def mCommaParen (l : List Char) : Option (List Char × List Char) :=
  match l with
  | ',' :: r =>
    match r.dropWhile isWsC with
    | ')' :: r2 => some ([')'], r2)
    | _ => none
  | _ => none

/-- \s+ (replaced by a single space). -/
def mWsCollapse (l : List Char) : Option (List Char × List Char) :=
  match l with
  | c :: cs => if isWsC c then some ([' '], cs.dropWhile isWsC) else none
  | [] => none

/-- Model of convertMySQLToSQLite: the replacements in source order, the
conditional removal of the separate PRIMARY KEY constraint guarded by the
case-sensitive includes check, and the final whitespace cleanup and trim. -/
def convertL (s0 : List Char) : List Char :=
  let s1 := runReplace mEngine s0
  let s2 := runReplace mCharset s1
  let s3 := runReplace mAutoIncEq s2
  let s4 := runReplace (mTypeParen "int".toList "INTEGER".toList) s3
  let s5 := runReplace (mTypeParen "tinyint".toList "INTEGER".toList) s4
  let s6 := runReplace (mTypeParen "varchar".toList "TEXT".toList) s5
  let s7 := runReplace (mTypeParen "char".toList "TEXT".toList) s6
  let s8 := runReplace (mLit "text".toList "TEXT".toList) s7
  let s9 := runReplace (mLit "datetime".toList "TEXT".toList) s8
  let s10 := runReplace (mLit "timestamp".toList "TEXT".toList) s9
  let s11 := runReplace mCollapse s10
  let s12 := if hasSub "PRIMARY KEY AUTOINCREMENT".toList s11
             then runReplace mPkConstraint s11 else s11
  let s13 := runReplace (mLit "AUTO_INCREMENT".toList "AUTOINCREMENT".toList) s12
  let s14 := runReplace mCommaParen s13
  let s15 := runReplace mWsCollapse s14
  trimL s15

def convertMySQLToSQLite (statement : String) : String :=
  (convertL statement.toList).asString

/-! Model of createTablesFromInserts and its helpers
(sql-executor.ts lines 135-215). -/

/-- The closing part `?\s*\)\s+VALUES of the INSERT header regex, checked
after the lazily growing column-list capture. -/
def insertCloseCheck (l : List Char) : Option (List Char) :=
  match (skipOpt '`' l).dropWhile isWsC with
  | ')' :: l3 =>
    match wsPlus l3 with
    | none => none
    | some l4 => ciPrefixL "VALUES".toList l4
  | _ => none

/-- The lazy capture ([^)]+?) of the INSERT header regex: grow one character
at a time (never across a closing parenthesis) until the closing part
matches. Returns (capture, rest after VALUES). -/
def lazyColsGroup : List Char → Option (List Char × List Char)
  | [] => none
  | c :: cs =>
    if c == ')' then none
    else
      match insertCloseCheck cs with
      | some rest => some ([c], rest)
      | none => (lazyColsGroup cs).map (fun p => (c :: p.1, p.2))

/-- The optional backtick before the capture, with JavaScript backtracking:
taking it is preferred, dropping it is retried on failure. -/
def matchColsList (l : List Char) : Option (List Char × List Char) :=
  match l with
  | '`' :: r =>
    match lazyColsGroup r with
    | some x => some x
    | none => lazyColsGroup l
  | _ => lazyColsGroup l

/-- The INSERT header regex of createTablesFromInserts (line 137):
INSERT\s+INTO\s+`?(\w+)`?\s*\(\s*`?([^)]+?)`?\s*\)\s+VALUES with /gi,
applied at the start of the input. Returns (table name, raw column-list
capture, rest of the input). -/
def matchInsertAt (cs : List Char) : Option (List Char × List Char × List Char) :=
  match ciPrefixL "INSERT".toList cs with
  | none => none
  | some r1 =>
    match wsPlus r1 with
    | none => none
    | some r2 =>
      match ciPrefixL "INTO".toList r2 with
      | none => none
      | some r3 =>
        match wsPlus r3 with
        | none => none
        | some r4 =>
          let r5 := skipOpt '`' r4
          let name := r5.takeWhile isWordC
          if name.isEmpty then none
          else
            match wsStar (skipOpt '`' (r5.dropWhile isWordC)) with
            | '(' :: r7 =>
              match matchColsList (wsStar r7) with
              | none => none
              | some (cols, rest) => some (name, cols, rest)
            | _ => none

def firstInsertMatch : List Char → Option (List Char × List Char × List Char)
  | [] => none
  | c :: cs =>
    match matchInsertAt (c :: cs) with
    | some x => some x
    | none => firstInsertMatch cs

def scanInserts : Nat → List Char → List (List Char × List Char)
  | 0, _ => []
  | fuel + 1, cs =>
    match firstInsertMatch cs with
    | none => []
    | some (n, c, rest) => (n, c) :: scanInserts fuel rest

/-- First occurrence wins: the tablesCreated set of createTablesFromInserts. -/
def dedupByName (seen : List (List Char)) :
    List (List Char × List Char) → List (List Char × List Char)
  | [] => []
  | (n, c) :: rest =>
    if seen.contains n then dedupByName seen rest
    else (n, c) :: dedupByName (n :: seen) rest

/-- The replacement /^`|`$/g of createTablesFromInserts line 152: one
leading and one trailing backtick removed. -/
def stripEdgeBackticks (l : List Char) : List Char :=
  let l1 := match l with
            | '`' :: r => r
            | _ => l
  match l1.reverse with
  | '`' :: r => r.reverse
  | _ => l1

/-- The column-list parsing of createTablesFromInserts lines 150-153: split
on the two-character backtick-comma separator, trim, strip edge backticks,
drop empties. -/
def parseInsertColumns (colsStr : List Char) : List (List Char) :=
  ((splitOnBtComma colsStr).map (fun col => stripEdgeBackticks (trimL col))).filter
    (fun c => !c.isEmpty)

/-- The sample-row regex of getSampleDataForTable (line 176):
INSERT\s+INTO\s+`?name`?[^V]+VALUES\s*\n?([^;]+) with /i, applied at the
start of the input. The class [^V]+ admits no v of either case, so the only
viable continuation is at the first v/V, which must start VALUES. -/
def matchSampleAt (tname : List Char) (cs : List Char) : Option (List Char) :=
  match ciPrefixL "INSERT".toList cs with
  | none => none
  | some r1 =>
    match wsPlus r1 with
    | none => none
    | some r2 =>
      match ciPrefixL "INTO".toList r2 with
      | none => none
      | some r3 =>
        match wsPlus r3 with
        | none => none
        | some r4 =>
          match ciPrefixL tname (skipOpt '`' r4) with
          | none => none
          | some r6 =>
            let r7 := skipOpt '`' r6
            if (r7.takeWhile (fun c => !(c == 'v' || c == 'V'))).isEmpty then none
            else
              match ciPrefixL "VALUES".toList
                  (r7.dropWhile (fun c => !(c == 'v' || c == 'V'))) with
              | none => none
              | some r8 =>
                let grp := (r8.dropWhile isWsC).takeWhile (fun c => !(c == ';'))
                if grp.isEmpty then none else some grp

def firstSampleMatch (tname : List Char) : List Char → Option (List Char)
  | [] => none
  | c :: cs =>
    match matchSampleAt tname (c :: cs) with
    | some g => some g
    | none => firstSampleMatch tname cs

/-- The first-row regex /\(([^)]+)\)/ of getSampleDataForTable line 183. -/
def firstParenGroup : List Char → Option (List Char)
  | [] => none
  | '(' :: r =>
    let inner := r.takeWhile (fun c => !(c == ')'))
    if inner.isEmpty then firstParenGroup r
    else
      match r.dropWhile (fun c => !(c == ')')) with
      | ')' :: _ => some inner
      | _ => none
  | _ :: r => firstParenGroup r

def isQuoteC (c : Char) : Bool := c == '\'' || c == '"' || c == '`'

/-- The replacement /^['"`]|['"`]$/g of line 190: one leading and one
trailing quote character removed. -/
def stripEdgeQuotes (l : List Char) : List Char :=
  let l1 := match l with
            | c :: r => if isQuoteC c then r else c :: r
            | [] => []
  match l1.reverse with
  | c :: r => if isQuoteC c then r.reverse else l1
  | [] => l1

/-- Model of getSampleDataForTable (sql-executor.ts lines 174-193). -/
def getSampleDataForTable (content tname : List Char) : List (List Char) :=
  match firstSampleMatch tname content with
  | none => []
  | some sec =>
    match firstParenGroup sec with
    | none => []
    | some row => (splitOnC ',' row).map (fun v => stripEdgeQuotes (trimL v))

/-- Model of !isNaN(Number(s)) on the trimmed sample values: the empty
string converts to 0, otherwise a signed decimal literal with optional
fraction and exponent, or Infinity, is required. -/
def jsNumLit (l : List Char) : Bool :=
  let l1 := match l with
            | '+' :: r => r
            | '-' :: r => r
            | _ => l
  if l1 = "Infinity".toList then true
  else
    let d1 := l1.takeWhile isDigitC
    let r1 := l1.dropWhile isDigitC
    let mantissa :=
      match r1 with
      | '.' :: rf => ((!d1.isEmpty || !(rf.takeWhile isDigitC).isEmpty),
                      rf.dropWhile isDigitC)
      | _ => (!d1.isEmpty, r1)
    if !mantissa.1 then false
    else
      match mantissa.2 with
      | [] => true
      | e :: re =>
        if e == 'e' || e == 'E' then
          let re1 := match re with
                     | '+' :: r => r
                     | '-' :: r => r
                     | _ => re
          !(re1.takeWhile isDigitC).isEmpty && (re1.dropWhile isDigitC).isEmpty
        else false

def jsIsNumeric (s : String) : Bool :=
  let t := trimL s.toList
  t.isEmpty || jsNumLit t

/-- Model of the per-column type inference of generateCreateTableSQL
(sql-executor.ts lines 196-209), including the boolean-like "0"/"1" branch. -/
def inferColumnType (col : String) (index : Nat) (sampleValue : String) : String :=
  if hasSub "id".toList (col.toList.map Char.toLower) && index == 0 then
    "INTEGER PRIMARY KEY"
  else if hasSub "id".toList (col.toList.map Char.toLower) then "INTEGER"
  else if jsIsNumeric sampleValue && sampleValue != "" && sampleValue != "null" then
    (if hasSub ['.'] sampleValue.toList then "REAL" else "INTEGER")
  else if sampleValue == "0" || sampleValue == "1" then "INTEGER"
  else "TEXT"

/-- The same inference with the boolean-like "0"/"1" branch removed. -/
def inferColumnTypeNoBool (col : String) (index : Nat) (sampleValue : String) : String :=
  if hasSub "id".toList (col.toList.map Char.toLower) && index == 0 then
    "INTEGER PRIMARY KEY"
  else if hasSub "id".toList (col.toList.map Char.toLower) then "INTEGER"
  else if jsIsNumeric sampleValue && sampleValue != "" && sampleValue != "null" then
    (if hasSub ['.'] sampleValue.toList then "REAL" else "INTEGER")
  else "TEXT"

/-- The columnDefinitions map of generateCreateTableSQL lines 196-212, as
(column name, inferred type) pairs; a missing sample value defaults to the
empty string. -/
def columnDefinitions (columns sampleData : List String) : List (String × String) :=
  mapIdxFrom (fun i col => (col, inferColumnType col i (sampleData.getD i ""))) 0 columns

def columnDefinitionsNoBool (columns sampleData : List String) : List (String × String) :=
  mapIdxFrom (fun i col => (col, inferColumnTypeNoBool col i (sampleData.getD i ""))) 0 columns

/-- Model of generateCreateTableSQL (lines 195-215): the produced statement. -/
def generateCreateTableSQL (tableName : String) (columns sampleData : List String) : String :=
  "CREATE TABLE IF NOT EXISTS `" ++ tableName ++ "` (\n  " ++
    (intercalateL ",\n  ".toList
      (((columnDefinitions columns sampleData).map
        (fun p => "`" ++ p.1 ++ "` " ++ p.2)).map String.toList)).asString ++
    "\n);"

def generateCreateTableSQLNoBool (tableName : String) (columns sampleData : List String) : String :=
  "CREATE TABLE IF NOT EXISTS `" ++ tableName ++ "` (\n  " ++
    (intercalateL ",\n  ".toList
      (((columnDefinitionsNoBool columns sampleData).map
        (fun p => "`" ++ p.1 ++ "` " ++ p.2)).map String.toList)).asString ++
    "\n);"

/-- The insert-driven inference of createTablesFromInserts (lines 135-172):
one entry per first INSERT occurrence of each table name, with the parsed
column list and each column's inferred type. -/
def createTablesFromInsertsCols (sqlContent : String) :
    List (String × List (String × String)) :=
  (dedupByName [] (scanInserts (sqlContent.toList.length + 1) sqlContent.toList)).map
    (fun p =>
      ((p.1.asString),
        columnDefinitions ((parseInsertColumns p.2).map List.asString)
          ((getSampleDataForTable sqlContent.toList p.1).map List.asString)))

/-- The CREATE TABLE statements synthesized and executed by
createTablesFromInserts, in order. -/
def inferredCreateSQLs (sqlContent : String) : List String :=
  (dedupByName [] (scanInserts (sqlContent.toList.length + 1) sqlContent.toList)).map
    (fun p =>
      generateCreateTableSQL p.1.asString ((parseInsertColumns p.2).map List.asString)
        ((getSampleDataForTable sqlContent.toList p.1).map List.asString))

/-! Model of the execution driver of initializeDatabase
(sql-executor.ts lines 76-133). -/

/-- The statement loop of lines 113-124: each statement is normalized, a
semicolon is appended, a failure leaves the store unchanged and execution
continues with the next statement. Returns the final store state and one
success flag per statement. -/
def runStatements (exec : σ → String → Except ε σ) (st : σ) :
    List String → σ × List Bool
  | [] => (st, [])
  | stmt :: rest =>
    match exec st (convertMySQLToSQLite stmt ++ ";") with
    | .ok st1 =>
      let r := runStatements exec st1 rest
      (r.1, true :: r.2)
    | .error _ =>
      let r := runStatements exec st rest
      (r.1, false :: r.2)

/-- The table-creation loop of createTablesFromInserts lines 164-170: a
failed CREATE is rethrown, aborting the whole initialization. -/
def runCreatesAbort (exec : σ → String → Except ε σ) (st : σ) :
    List String → Except ε σ
  | [] => .ok st
  | sql :: rest =>
    match exec st sql with
    | .ok st1 => runCreatesAbort exec st1 rest
    | .error e => .error e

/-- Model of initializeDatabase: when the dump contains a CREATE TABLE
statement the split statements are executed directly; otherwise the tables
inferred from INSERT statements are created first, a creation failure
aborting the run before any dump statement executes. -/
def initializeDatabase (exec : σ → String → Except ε σ) (st : σ)
    (sqlContent : String) : Except ε (σ × List Bool) :=
  if hasCreateTableRe sqlContent.toList then
    .ok (runStatements exec st (splitStatements sqlContent))
  else
    match runCreatesAbort exec st (inferredCreateSQLs sqlContent) with
    | .error e => .error e
    | .ok st1 => .ok (runStatements exec st1 (splitStatements sqlContent))

/-! Modelled from the spec: the writable relational store of sections 4.6
and 6 (the SQLite handle behind SQLExecutor, external to src/). -/

def dropFinalSemi (l : List Char) : List Char :=
  match l.reverse with
  | ';' :: r => r.reverse
  | _ => l

def parenDepthOk : Nat → List Char → Bool
  | d, [] => d == 0
  | d, '(' :: r => parenDepthOk (d + 1) r
  | d, ')' :: r => !(d == 0) && parenDepthOk (d - 1) r
  | d, _ :: r => parenDepthOk d r

def countTopGroups : Nat → List Char → Nat
  | _, [] => 0
  | d, '(' :: r => (if d == 0 then 1 else 0) + countTopGroups (d + 1) r
  | d, ')' :: r => countTopGroups (d - 1) r
  | d, _ :: r => countTopGroups d r

def afterSubCi (pat : List Char) : List Char → Option (List Char)
  | [] => none
  | c :: cs =>
    match ciPrefixL pat (c :: cs) with
    | some r => some r
    | none => afterSubCi pat cs

/-- Modelled from the spec: the number of parenthesised value rows after the
VALUES keyword of an INSERT statement. -/
def findValuesRows (s : List Char) : Nat :=
  match afterSubCi "VALUES".toList s with
  | none => 0
  | some r => countTopGroups 0 r

/-- Modelled from the spec: one statement executed against the writable
relational store (section 4.6). The state is the list of tables with their
row counts; CREATE TABLE name (body) requires a balanced parenthesised body
and a fresh name, INSERT INTO name requires an existing table and adds its
VALUES rows; anything else, and any malformed statement, is rejected. -/
def execStore (db : List (String × Nat)) (sql : String) :
    Except String (List (String × Nat)) :=
  let s := trimL (dropFinalSemi (trimL sql.toList))
  match ciPrefixL "CREATE TABLE".toList s with
  | some r =>
    match wsPlus r with
    | none => .error "syntax error"
    | some r1 =>
      let name := (skipOpt '`' r1).takeWhile isWordC
      let body := trimL (skipOpt '`' ((skipOpt '`' r1).dropWhile isWordC))
      if name.isEmpty then .error "syntax error"
      else
        match body with
        | '(' :: _ =>
          if parenDepthOk 0 body && body.getLast? == some ')' then
            if db.any (fun p => p.1 == name.asString) then .error "table exists"
            else .ok (db ++ [(name.asString, 0)])
          else .error "syntax error"
        | _ => .error "syntax error"
  | none =>
    match ciPrefixL "INSERT INTO".toList s with
    | some r =>
      match wsPlus r with
      | none => .error "syntax error"
      | some r1 =>
        let name := (skipOpt '`' r1).takeWhile isWordC
        if name.isEmpty then .error "syntax error"
        else if !(db.any (fun p => p.1 == name.asString)) then .error "no such table"
        else
          match findValuesRows s with
          | 0 => .error "syntax error"
          | k => .ok (db.map (fun p => if p.1 == name.asString then (p.1, p.2 + k) else p))
    | none => .error "unsupported statement"

/-! Auxiliary definitions used by the verification statements. -/

/-- A well-formed identifier for the CREATE TABLE regex's name capture:
[a-zA-Z_][a-zA-Z0-9_]*. -/
def nameOk : List Char → Bool
  | [] => false
  | c :: r => isNameStartC c && r.all isWordC

/-- A dump consisting of one CREATE TABLE statement per entry, each of the
form CREATE TABLE name (body); followed by a newline. -/
def renderDump : List (List Char × List Char) → List Char
  | [] => []
  | (n, b) :: tl =>
    "CREATE TABLE ".toList ++ (n ++ (" (".toList ++ (b ++ (");\n".toList ++ renderDump tl))))

/-- A separate PRIMARY KEY ( ... ) table constraint occurs somewhere:
the pattern PRIMARY KEY\s*\( at some position (case-insensitive). -/
def pkParenAt (l : List Char) : Bool :=
  match ciPrefixL "PRIMARY KEY".toList l with
  | none => false
  | some r =>
    match r.dropWhile isWsC with
    | '(' :: _ => true
    | _ => false

def hasPKParenConstraint : List Char → Bool
  | [] => false
  | c :: cs => pkParenAt (c :: cs) || hasPKParenConstraint cs

/-- The dump of the partial-failure scenario: a valid CREATE TABLE, a
malformed CREATE TABLE with mismatched parentheses, a valid INSERT. -/
def dumpC2 : String :=
  "CREATE TABLE t (id INTEGER PRIMARY KEY, name TEXT);\nCREATE TABLE u (id INTEGER, name TEXT;\nINSERT INTO t (id, name) VALUES (1, 'a');"

/-! The C5 scenario family: the spec's dialect statement with an arbitrary
sequence of already-normalized middle columns between the backticked
AUTO_INCREMENT declaration and the trailing, comma-preceded, separate
PRIMARY KEY constraint. -/

/-- A middle column of the C5 family, rendered in already-normalized form. -/
inductive C5Col
  | priceReal
  | qtyInt

def renderC5Col : C5Col → List Char
  | C5Col.priceReal => ", `price` REAL".toList
  | C5Col.qtyInt => ", `qty` INTEGER".toList

/-- The rendered middle columns of a family statement. -/
def c5Cols : List C5Col → List Char
  | [] => []
  | a :: tl => renderC5Col a ++ c5Cols tl

/-- Header of a family statement, through the AUTO_INCREMENT declaration. -/
def c5Head0 : List Char :=
  "CREATE TABLE users (`id` INTEGER NOT NULL AUTO_INCREMENT".toList

/-- The same header after the declaration collapse. -/
def c5Head1 : List Char :=
  "CREATE TABLE users (`id` INTEGER PRIMARY KEY AUTOINCREMENT".toList

/-- The trailing comma-preceded separate PRIMARY KEY constraint and the
closing parenthesis. -/
def c5Tail : List Char := ", PRIMARY KEY (`id`))".toList

/-- A family statement: header, middle columns, trailing constraint. -/
def c5Stmt (cols : List C5Col) : String :=
  (c5Head0 ++ (c5Cols cols ++ c5Tail)).asString

/-- The expected normalized output for a family statement. -/
def c5Expected (cols : List C5Col) : String :=
  (c5Head1 ++ (c5Cols cols ++ [')'])).asString

/-! Claim theorems: concrete evaluations and elementary properties. -/

/-- C1: evaluating the insert-driven inferrer at the dump
INSERT INTO orders (order_id, total, active) VALUES (1, 19.99, 1); —
the column list is split on the backtick-comma sequence, which does not
occur here, so a single mangled column is inferred instead of the three
columns the specification requires. -/
theorem createTablesFromInserts_C1 :
    createTablesFromInsertsCols
        "INSERT INTO orders (order_id, total, active) VALUES (1, 19.99, 1);" =
      [("orders", [("order_id, total, active", "INTEGER PRIMARY KEY")])] := by
  decide

/-- C3 counterexample: the column splitter of the DDL extractor does treat
the comma inside DECIMAL(10,2) as a column separator, and the column loses
its size specifier. -/
theorem extractColumns_C3_cex :
    (splitOnC ',' "price DECIMAL(10,2)".toList).map List.asString =
      ["price DECIMAL(10", "2)"] ∧
    extractColumnsL "price DECIMAL(10,2)".toList =
      [{ name := "price", type := "DECIMAL", nullable := true, primaryKey := false,
         foreignKey := none }] := by
  exact ⟨by decide, by decide⟩

/-- C3 (amended): the splitter splits on every comma, including one inside a
size specifier; the column is extracted with its type truncated to the bare
type name and the numeric remainder fragment is silently dropped. -/
theorem extractColumns_C3 :
    extractColumnsL "id INTEGER PRIMARY KEY, price DECIMAL(10,2), label TEXT".toList =
      [{ name := "id", type := "INTEGER", nullable := true, primaryKey := true,
         foreignKey := none },
       { name := "price", type := "DECIMAL", nullable := true, primaryKey := false,
         foreignKey := none },
       { name := "label", type := "TEXT", nullable := true, primaryKey := false,
         foreignKey := none }] := by
  decide

/-- C4 counterexample: a dump with two CREATE TABLE occurrences, the first
closed by ) ENGINE=InnoDB; — the extractor produces a single table, not one
per occurrence. -/
theorem extractTables_C4_cex :
    countOccCi "CREATE TABLE".toList
        "CREATE TABLE a (x INTEGER) ENGINE=InnoDB;\nCREATE TABLE b (y INTEGER);".toList = 2 ∧
    (extractTables "CREATE TABLE a (x INTEGER) ENGINE=InnoDB;\nCREATE TABLE b (y INTEGER);").map
        TableSchema.name = ["a"] ∧
    (extractTables "CREATE TABLE a (x INTEGER) ENGINE=InnoDB;\nCREATE TABLE b (y INTEGER);").length
        = 1 := by
  exact ⟨by decide, by decide, by decide⟩

/-- C6 counterexample: the normalizer is not idempotent. The first pass
rewrites the bare PRIMARY KEY AUTO_INCREMENT to PRIMARY KEY AUTOINCREMENT
without removing the separate constraint; the second pass then removes the
separate PRIMARY KEY (a) constraint. -/
theorem convertMySQL_C6_cex :
    convertMySQLToSQLite
        "CREATE TABLE t6 (a INTEGER PRIMARY KEY AUTO_INCREMENT, b INTEGER, PRIMARY KEY (a))" =
      "CREATE TABLE t6 (a INTEGER PRIMARY KEY AUTOINCREMENT, b INTEGER, PRIMARY KEY (a))" ∧
    convertMySQLToSQLite (convertMySQLToSQLite
        "CREATE TABLE t6 (a INTEGER PRIMARY KEY AUTO_INCREMENT, b INTEGER, PRIMARY KEY (a))") =
      "CREATE TABLE t6 (a INTEGER PRIMARY KEY AUTOINCREMENT, b INTEGER)" ∧
    convertMySQLToSQLite (convertMySQLToSQLite
        "CREATE TABLE t6 (a INTEGER PRIMARY KEY AUTO_INCREMENT, b INTEGER, PRIMARY KEY (a))") ≠
      convertMySQLToSQLite
        "CREATE TABLE t6 (a INTEGER PRIMARY KEY AUTO_INCREMENT, b INTEGER, PRIMARY KEY (a))" := by
  exact ⟨by decide, by decide, by decide⟩

/-- C6 (amended): idempotence fails in general, but holds on statements such
as the dialect scenario, where the first pass already performs the collapse
and removes the separate constraint. -/
theorem convertMySQL_C6 :
    convertMySQLToSQLite (convertMySQLToSQLite
        "CREATE TABLE t7 (`id` INTEGER NOT NULL AUTO_INCREMENT, `title` TEXT, PRIMARY KEY (`id`))") =
      convertMySQLToSQLite
        "CREATE TABLE t7 (`id` INTEGER NOT NULL AUTO_INCREMENT, `title` TEXT, PRIMARY KEY (`id`))" := by
  decide

/-- The statement loop distributes over concatenation: the final state and
flag list of a run over l1 ++ l2 is the run over l2 started from the state
reached after l1. -/
theorem runStatements_append (exec : σ → String → Except ε σ) (st : σ)
    (l1 l2 : List String) :
    runStatements exec st (l1 ++ l2) =
      ((runStatements exec (runStatements exec st l1).1 l2).1,
       (runStatements exec st l1).2 ++
         (runStatements exec (runStatements exec st l1).1 l2).2) := by
  induction l1 generalizing st with
  | nil => simp [runStatements]
  | cons s rest ih =>
    simp only [List.cons_append, runStatements]
    cases hx : exec st (convertMySQLToSQLite s ++ ";") with
    | ok st1 => simp [ih st1]
    | error e => simp [ih st]

/-- C2 (amended): on the DDL path the driver never aborts — a failing
statement leaves the store unchanged and every remaining statement still
executes — and the S1/S2/S3 partial-failure scenario ends with table t
holding exactly one row; but (see the counterexample) a dump without
CREATE TABLE can abort on a synthesized CREATE failure. -/
theorem initializeDatabase_C2 :
    (∀ (σ ε : Type) (exec : σ → String → Except ε σ) (st : σ)
       (pre post : List String) (bad : String) (e : ε),
       exec (runStatements exec st pre).1 (convertMySQLToSQLite bad ++ ";") =
           .error e →
       runStatements exec st (pre ++ bad :: post) =
         ((runStatements exec (runStatements exec st pre).1 post).1,
          (runStatements exec st pre).2 ++ false ::
            (runStatements exec (runStatements exec st pre).1 post).2)) ∧
    initializeDatabase execStore [] dumpC2 = .ok ([("t", 1)], [true, false, true]) := by
  constructor
  · intro σ ε exec st pre post bad e h
    rw [runStatements_append]
    simp only [runStatements, h]
  · rfl

/-- C2 witness: the general clause applied to a concrete failing statement
between two successful ones. -/
theorem initializeDatabase_C2_witness :
    runStatements (fun (n : Nat) (s : String) =>
        if s = "BAD;" then (Except.error "x" : Except String Nat) else .ok (n + 1)) 0
      ["OK1", "BAD", "OK2"] = (2, [true, false, true]) := by
  have h := initializeDatabase_C2.1 Nat String
    (fun n s => if s = "BAD;" then .error "x" else .ok (n + 1)) 0
    ["OK1"] ["OK2"] "BAD" "x" (by rfl)
  exact h.trans (by decide)

/-- C2 counterexample: for a dump with no CREATE TABLE statement and a store
that rejects the synthesized CREATE TABLE, the whole run aborts with the
error: the dump's one statement is never executed, refuting the claim that
no single statement failure aborts the run. -/
theorem initializeDatabase_C2_cex :
    initializeDatabase (fun (_ : Unit) (_ : String) =>
        (Except.error "refused" : Except String Unit)) ()
      "INSERT INTO logs (msg, num) VALUES (7, 8);" = .error "refused" ∧
    (splitStatements "INSERT INTO logs (msg, num) VALUES (7, 8);").length = 1 := by
  exact ⟨by rfl, by decide⟩

/-- C7: a statement is routed to the read path (the store's all callback,
returning the row sequence) exactly when its trimmed upper-cased text begins
with SELECT, WITH or PRAGMA; every other statement goes to the mutation
path, whose successful result reports the affected-row count and the last
inserted identifier. -/
theorem executeQuery_C7 :
    ∀ (α : Type) (all : String → Except String (List α))
      (run : String → Except String RunResult) (query : String),
      (isReadQuery query =
        (startsWithL "SELECT".toList ((trimL query.toList).map Char.toUpper) ||
         startsWithL "WITH".toList ((trimL query.toList).map Char.toUpper) ||
         startsWithL "PRAGMA".toList ((trimL query.toList).map Char.toUpper))) ∧
      (isReadQuery query = true →
        executeQuery all run query = (all query).map ExecResult.rows) ∧
      (isReadQuery query = false → ∀ r, run query = .ok r →
        executeQuery all run query =
          .ok (.runInfo r.changes r.lastID
            ("Query executed successfully. " ++ toString r.changes ++
              " row(s) affected."))) := by
  intro α all run query
  refine ⟨rfl, fun h => ?_, fun h r hr => ?_⟩
  · simp [executeQuery, h]
  · simp [executeQuery, h, hr, Except.map]

/-- C7 witness: the classification at concrete read and write statements. -/
theorem executeQuery_C7_witness :
    executeQuery (fun q => (Except.ok [q] : Except String (List String)))
        (fun _ => Except.ok ⟨3, 9⟩) "  select * from t" =
      .ok (.rows ["  select * from t"]) ∧
    executeQuery (fun _ => (Except.ok [] : Except String (List Nat)))
        (fun _ => Except.ok ⟨3, 9⟩) "UPDATE t SET x = 1" =
      .ok (.runInfo 3 9 "Query executed successfully. 3 row(s) affected.") := by
  constructor
  · have h := (executeQuery_C7 String (fun q => Except.ok [q])
      (fun _ => Except.ok ⟨3, 9⟩) "  select * from t").2.1 (by decide)
    exact h.trans (by rfl)
  · exact (executeQuery_C7 Nat (fun _ => Except.ok [])
      (fun _ => Except.ok ⟨3, 9⟩) "UPDATE t SET x = 1").2.2 (by decide) ⟨3, 9⟩ rfl

/-- C9: the boolean-like "0"/"1" branch of the type inference is
unreachable — whenever the sampled value is "0" or "1" the numeric branch
already yields INTEGER — so removing it changes no inferred type and no
generated CREATE TABLE statement. -/
theorem inferColumnType_C9 :
    (∀ v : String, (v = "0" ∨ v = "1") →
      (jsIsNumeric v && v != "" && v != "null") = true) ∧
    (∀ (col : String) (index : Nat) (v : String),
      inferColumnType col index v = inferColumnTypeNoBool col index v) ∧
    (∀ (t : String) (cols samples : List String),
      generateCreateTableSQL t cols samples = generateCreateTableSQLNoBool t cols samples) := by
  have h0 : ∀ v : String, (v = "0" ∨ v = "1") →
      (jsIsNumeric v && v != "" && v != "null") = true := by
    rintro v (rfl | rfl) <;> decide
  have h1 : ∀ (col : String) (index : Nat) (v : String),
      inferColumnType col index v = inferColumnTypeNoBool col index v := by
    intro col index v
    by_cases hv : v = "0" ∨ v = "1"
    · rcases hv with rfl | rfl <;> rfl
    · have hc4 : (v == "0" || v == "1") = false := by
        simp only [Bool.or_eq_false_iff, beq_eq_false_iff_ne, ne_eq]
        exact ⟨fun h => hv (Or.inl h), fun h => hv (Or.inr h)⟩
      unfold inferColumnType inferColumnTypeNoBool
      simp only [hc4, Bool.false_eq_true, if_false]
  have h2 : ∀ (cols : List String) (i : Nat) (samples : List String),
      mapIdxFrom (fun i col => (col, inferColumnType col i (samples.getD i ""))) i cols =
        mapIdxFrom (fun i col => (col, inferColumnTypeNoBool col i (samples.getD i ""))) i cols := by
    intro cols
    induction cols with
    | nil => intro i samples; rfl
    | cons c rest ih =>
      intro i samples
      simp only [mapIdxFrom, h1, ih]
  refine ⟨h0, h1, fun t cols samples => ?_⟩
  unfold generateCreateTableSQL generateCreateTableSQLNoBool
    columnDefinitions columnDefinitionsNoBool
  rw [h2]

/-- C10: loading the persisted schema never throws — a failed file read or a
failed JSON parse yields null (none), a successful parse yields the parsed
schema object. -/
theorem loadDatabaseSchema_C10 :
    (∀ (parseJson : String → Except String DatabaseSchema) (e : String),
      loadDatabaseSchema (.error e) parseJson = none) ∧
    (∀ (parseJson : String → Except String DatabaseSchema) (c e : String),
      parseJson c = .error e → loadDatabaseSchema (.ok c) parseJson = none) ∧
    (∀ (parseJson : String → Except String DatabaseSchema) (c : String)
      (s : DatabaseSchema), parseJson c = .ok s →
      loadDatabaseSchema (.ok c) parseJson = some s) := by
  refine ⟨fun _ _ => rfl, fun parseJson c e h => ?_, fun parseJson c s h => ?_⟩
  · simp [loadDatabaseSchema, h]
  · simp [loadDatabaseSchema, h]

/-- C10 witness: the three clauses at concrete inputs. -/
theorem loadDatabaseSchema_C10_witness :
    loadDatabaseSchema (.error "ENOENT")
        (fun _ => .error "unreachable") = none ∧
    loadDatabaseSchema (.ok "not json") (fun _ => .error "parse error") = none ∧
    loadDatabaseSchema (.ok "{}")
        (fun _ => .ok ⟨[], [], ⟨"now", "f.sql", 0⟩⟩) =
      some ⟨[], [], ⟨"now", "f.sql", 0⟩⟩ :=
  ⟨loadDatabaseSchema_C10.1 _ "ENOENT",
   loadDatabaseSchema_C10.2.1 _ "not json" "parse error" rfl,
   loadDatabaseSchema_C10.2.2 _ "{}" _ rfl⟩

/-! Substring lemmas: the CREATE TABLE scanner can only succeed on input
containing the literal closing-parenthesis-semicolon sequence. -/

theorem hasSub_suffix {pat l1 l2 : List Char} (h : l2 <:+ l1)
    (hs : hasSub pat l2 = true) : hasSub pat l1 = true := by
  obtain ⟨t, rfl⟩ := h
  induction t with
  | nil => exact hs
  | cons c t ih => simp [hasSub, ih]

theorem splitFirst2_hasSub {a b : Char} :
    ∀ {l : List Char}, (splitFirst2 a b l).isSome = true → hasSub [a, b] l = true := by
  intro l
  induction l with
  | nil => intro h; exact absurd h (by simp [splitFirst2])
  | cons c tl ih =>
    intro h
    cases tl with
    | nil => exact absurd h (by simp [splitFirst2])
    | cons d rest =>
      by_cases hcd : (c == a && d == b) = true
      · have hsw : startsWithL [a, b] (c :: d :: rest) = true := by
          simp only [Bool.and_eq_true, beq_iff_eq] at hcd
          simp [startsWithL, hcd.1, hcd.2]
        show (startsWithL [a, b] (c :: d :: rest) || hasSub [a, b] (d :: rest)) = true
        rw [hsw, Bool.true_or]
      · rw [splitFirst2, if_neg (by simpa using hcd)] at h
        have hsome : (splitFirst2 a b (d :: rest)).isSome = true := by
          cases hs : splitFirst2 a b (d :: rest) with
          | none => rw [hs] at h; exact absurd h (by simp)
          | some p => simp
        show (startsWithL [a, b] (c :: d :: rest) || hasSub [a, b] (d :: rest)) = true
        rw [ih hsome, Bool.or_true]

theorem ciPrefixL_suffix : ∀ {p l r : List Char}, ciPrefixL p l = some r → r <:+ l := by
  intro p
  induction p with
  | nil => intro l r h; cases h; exact List.suffix_refl _
  | cons p ps ih =>
    intro l r h
    cases l with
    | nil => exact absurd h (by simp [ciPrefixL])
    | cons c cs =>
      rw [ciPrefixL] at h
      by_cases hc : ciC p c = true
      · rw [if_pos hc] at h
        exact (ih h).trans (List.suffix_cons c cs)
      · rw [if_neg hc] at h; exact absurd h (by simp)

theorem dropWhile_suffix_self (p : Char → Bool) (l : List Char) :
    l.dropWhile p <:+ l := by
  induction l with
  | nil => exact List.suffix_refl _
  | cons c cs ih =>
    rw [List.dropWhile_cons]
    by_cases hc : p c = true
    · rw [if_pos hc]; exact ih.trans (List.suffix_cons c cs)
    · rw [if_neg hc]

theorem wsPlus_suffix {l r : List Char} (h : wsPlus l = some r) : r <:+ l := by
  cases l with
  | nil => exact absurd h (by simp [wsPlus])
  | cons c cs =>
    rw [wsPlus] at h
    by_cases hc : isWsC c = true
    · rw [if_pos hc] at h
      cases h
      exact (dropWhile_suffix_self isWsC cs).trans (List.suffix_cons c cs)
    · rw [if_neg hc] at h; exact absurd h (by simp)

theorem skipOpt_suffix (x : Char) (l : List Char) : skipOpt x l <:+ l := by
  cases l with
  | nil => exact List.suffix_refl _
  | cons c cs =>
    rw [skipOpt]
    by_cases hc : (c == x) = true
    · rw [if_pos hc]; exact List.suffix_cons c cs
    · rw [if_neg hc]

theorem takeName_suffix (l : List Char) : (takeName l).2 <:+ l := by
  cases l with
  | nil => exact List.suffix_refl _
  | cons c cs =>
    rw [takeName]
    by_cases hc : isNameStartC c = true
    · rw [if_pos hc]
      exact (dropWhile_suffix_self isWordC cs).trans (List.suffix_cons c cs)
    · rw [if_neg hc]

theorem tryIfNotExists_suffix {l r : List Char} (h : tryIfNotExists l = some r) :
    r <:+ l := by
  simp only [tryIfNotExists, Option.bind_eq_some] at h
  obtain ⟨r1, h1, r2, h2, r3, h3, r4, h4, r5, h5, h6⟩ := h
  exact (((((wsPlus_suffix h6).trans (ciPrefixL_suffix h5)).trans
    (wsPlus_suffix h4)).trans (ciPrefixL_suffix h3)).trans
    (wsPlus_suffix h2)).trans (ciPrefixL_suffix h1)

theorem matchNameBody_hasSub {l : List Char} {x : List Char × List Char × List Char}
    (h : matchNameBody l = some x) : hasSub [')', ';'] l = true := by
  rw [matchNameBody] at h
  split at h
  · exact absurd h (by simp)
  · split at h
    · rename_i pr name l2 hne heq1 xx l5 heq2
      have hsome : (splitFirst2 ')' ';' l5).isSome = true := by
        cases hs : splitFirst2 ')' ';' l5 with
        | none => rw [hs] at h; exact absurd h (by simp)
        | some p => simp
      have h1 : hasSub [')', ';'] l5 = true := splitFirst2_hasSub hsome
      have s1 : l5 <:+ '(' :: l5 := List.suffix_cons '(' l5
      have s2 : ('(' :: l5) <:+ skipOpt '`' l2 := by
        rw [← heq2]; exact dropWhile_suffix_self isWsC _
      have s3 : skipOpt '`' l2 <:+ l2 := skipOpt_suffix '`' l2
      have s4 : l2 <:+ skipOpt '`' l := by
        have hts := takeName_suffix (skipOpt '`' l)
        rw [heq1] at hts; exact hts
      have s5 : skipOpt '`' l <:+ l := skipOpt_suffix '`' l
      exact hasSub_suffix ((((s1.trans s2).trans s3).trans s4).trans s5) h1
    · exact absurd h (by simp)

theorem matchAfterTable_hasSub {r : List Char} {x : List Char × List Char × List Char}
    (h : matchAfterTable r = some x) : hasSub [')', ';'] r = true := by
  rw [matchAfterTable] at h
  split at h
  · rename_i r5 heq5
    split at h
    · rename_i y heqy
      exact hasSub_suffix (tryIfNotExists_suffix heq5) (matchNameBody_hasSub heqy)
    · exact matchNameBody_hasSub h
  · exact matchNameBody_hasSub h

theorem matchCreateAt_hasSub {cs : List Char} {x : List Char × List Char × List Char}
    (h : matchCreateAt cs = some x) : hasSub [')', ';'] cs = true := by
  rw [matchCreateAt] at h
  split at h
  · exact absurd h (by simp)
  · rename_i r1 heq1
    split at h
    · exact absurd h (by simp)
    · rename_i r2 heq2
      split at h
      · exact absurd h (by simp)
      · rename_i r3 heq3
        split at h
        · exact absurd h (by simp)
        · rename_i r4 heq4
          exact hasSub_suffix ((((wsPlus_suffix heq4).trans
            (ciPrefixL_suffix heq3)).trans (wsPlus_suffix heq2)).trans
            (ciPrefixL_suffix heq1)) (matchAfterTable_hasSub h)

theorem firstCreateMatch_hasSub :
    ∀ {cs : List Char} {x : List Char × List Char × List Char},
      firstCreateMatch cs = some x → hasSub [')', ';'] cs = true := by
  intro cs
  induction cs with
  | nil => intro x h; exact absurd h (by simp [firstCreateMatch])
  | cons c cs ih =>
    intro x h
    rw [firstCreateMatch] at h
    split at h
    · rename_i y heqy
      cases h
      exact matchCreateAt_hasSub heqy
    · show (startsWithL [')', ';'] (c :: cs) || hasSub [')', ';'] cs) = true
      rw [ih h, Bool.or_true]

theorem scanCreates_nil_of_noClose {cs : List Char}
    (hc : hasSub [')', ';'] cs = false) : ∀ fuel, scanCreates fuel cs = [] := by
  intro fuel
  cases fuel with
  | zero => rfl
  | succ f =>
    rw [scanCreates]
    cases hm : firstCreateMatch cs with
    | none => rfl
    | some p => exact absurd (firstCreateMatch_hasSub hm) (by simp [hc])

/-- C8: the DDL extractor recognizes a CREATE TABLE occurrence only when the
closing parenthesis is immediately followed by a semicolon: on any dump
without the two-character sequence it extracts nothing; a table closed by
) ENGINE=...; before a lone semicolon is omitted entirely, and with a later
); in the dump the first table's body swallows the second table, which is
omitted. -/
theorem extractTables_C8 :
    (∀ cs : List Char, hasSub [')', ';'] cs = false → extractTablesL cs = []) ∧
    extractTables "CREATE TABLE a (x INTEGER) ENGINE=InnoDB DEFAULT CHARSET=utf8;" = [] ∧
    (extractTables
        "CREATE TABLE c (x INTEGER) ENGINE=InnoDB;\nCREATE TABLE d (y INTEGER);").map
      TableSchema.name = ["c"] ∧
    countOccCi "CREATE TABLE".toList
      "CREATE TABLE c (x INTEGER) ENGINE=InnoDB;\nCREATE TABLE d (y INTEGER);".toList = 2 := by
  refine ⟨fun cs hc => ?_, by decide, by decide, by decide⟩
  unfold extractTablesL
  rw [scanCreates_nil_of_noClose hc]
  rfl

/-- C8 witness: the general clause at a dump with no closing sequence. -/
theorem extractTables_C8_witness :
    extractTablesL "SELECT name FROM sqlite_master".toList = [] :=
  extractTables_C8.1 _ (by decide)

/-! Character-class lemmas. -/

theorem word_not_ws {c : Char} (h : isWordC c = true) : isWsC c = false := by
  by_cases h1 : c = ' '
  · subst h1; exact absurd h (by decide)
  by_cases h2 : c = '\t'
  · subst h2; exact absurd h (by decide)
  by_cases h3 : c = '\n'
  · subst h3; exact absurd h (by decide)
  by_cases h4 : c = '\r'
  · subst h4; exact absurd h (by decide)
  simp [isWsC, h1, h2, h3, h4]

theorem word_ne_backtick {c : Char} (h : isWordC c = true) : (c == '`') = false := by
  by_cases h1 : c = '`'
  · subst h1; exact absurd h (by decide)
  · simp [h1]

theorem nameStart_word {c : Char} (h : isNameStartC c = true) : isWordC c = true := by
  simp only [isNameStartC, Bool.or_eq_true] at h
  rcases h with h | h
  · simp [isWordC, Char.isAlphanum, h]
  · simp [isWordC, h]

theorem nameOk_all_word : ∀ {n : List Char}, nameOk n = true → n.all isWordC = true := by
  intro n h
  cases n with
  | nil => exact absurd h (by decide)
  | cons c r =>
    simp only [nameOk, Bool.and_eq_true] at h
    simp [List.all_cons, nameStart_word h.1, h.2]

theorem takeWhileAppendAll {p : Char → Bool} :
    ∀ {l1 l2 : List Char}, l1.all p = true →
      (l1 ++ l2).takeWhile p = l1 ++ l2.takeWhile p := by
  intro l1
  induction l1 with
  | nil => intro l2 _; simp
  | cons c r ih =>
    intro l2 h
    simp only [List.all_cons, Bool.and_eq_true] at h
    rw [List.cons_append, List.takeWhile_cons, if_pos h.1, ih h.2]
    rfl

theorem dropWhileAppendAll {p : Char → Bool} :
    ∀ {l1 l2 : List Char}, l1.all p = true →
      (l1 ++ l2).dropWhile p = l2.dropWhile p := by
  intro l1
  induction l1 with
  | nil => intro l2 _; simp
  | cons c r ih =>
    intro l2 h
    simp only [List.all_cons, Bool.and_eq_true] at h
    rw [List.cons_append, List.dropWhile_cons, if_pos h.1, ih h.2]

/-! The scanner on a dump made of well-formed CREATE TABLE statements. -/

theorem splitFirst2_exact {tail : List Char} :
    ∀ {b : List Char}, hasSub [')', ';'] b = false →
      splitFirst2 ')' ';' (b ++ ')' :: ';' :: tail) = some (b, tail) := by
  intro b
  induction b with
  | nil => intro _; rfl
  | cons c b' ih =>
    intro hb
    have hb2 : startsWithL [')', ';'] (c :: b') = false ∧ hasSub [')', ';'] b' = false := by
      have hx : (startsWithL [')', ';'] (c :: b') || hasSub [')', ';'] b') = false := hb
      exact ⟨by simp only [Bool.or_eq_false_iff] at hx; exact hx.1,
             by simp only [Bool.or_eq_false_iff] at hx; exact hx.2⟩
    cases b' with
    | nil =>
      rw [List.cons_append, List.nil_append, splitFirst2, if_neg (by simp)]
      rfl
    | cons d b'' =>
      have hcd : (c == ')' && d == ';') = false := by
        cases hc : c == ')' <;> cases hd : d == ';' <;> simp_all [startsWithL]
      rw [List.cons_append, List.cons_append, splitFirst2, if_neg (by simp [hcd])]
      have hx := ih hb2.2
      rw [List.cons_append] at hx
      rw [hx]
      rfl

theorem ciPrefixL_IF_space (c : Char) (z : List Char) :
    ciPrefixL "IF".toList (c :: ' ' :: z) = none := by
  rw [show "IF".toList = 'I' :: 'F' :: [] from rfl, ciPrefixL]
  by_cases h1 : ciC 'I' c = true
  · rw [if_pos h1, ciPrefixL, if_neg (by decide)]
  · rw [if_neg h1]

/-- On a word-character table name followed by a space and an opening
parenthesis, the optional IF NOT EXISTS group of the regex never matches. -/
theorem tryINE_words : ∀ {n : List Char}, ∀ {z : List Char}, n ≠ [] →
    n.all isWordC = true → tryIfNotExists (n ++ ' ' :: '(' :: z) = none := by
  intro n z hn hw
  cases n with
  | nil => exact absurd rfl hn
  | cons c n' =>
    cases n' with
    | nil =>
      rw [List.cons_append, List.nil_append, tryIfNotExists, ciPrefixL_IF_space]
      rfl
    | cons c2 r2 =>
      rw [List.cons_append, List.cons_append, tryIfNotExists,
        show "IF".toList = 'I' :: 'F' :: [] from rfl, ciPrefixL]
      by_cases h1 : ciC 'I' c = true
      · rw [if_pos h1, ciPrefixL]
        by_cases h2 : ciC 'F' c2 = true
        · rw [if_pos h2, ciPrefixL, Option.some_bind]
          cases r2 with
          | nil =>
            rw [List.nil_append,
              show wsPlus (' ' :: '(' :: z) = some ('(' :: z) from rfl,
              Option.some_bind,
              show ciPrefixL "NOT".toList ('(' :: z) = none from rfl]
            rfl
          | cons c3 r3 =>
            have h3 : isWordC c3 = true := by
              simp only [List.all_cons, Bool.and_eq_true] at hw
              exact hw.2.2.1
            rw [List.cons_append, wsPlus, if_neg (by simp [word_not_ws h3])]
            rfl
        · rw [if_neg h2]; rfl
      · rw [if_neg h1]; rfl

/-- The name-and-body tail of the regex on a rendered statement: the name is
captured in full, the body runs to the first closing sequence. -/
theorem matchNameBody_render {c : Char} {n' b tail : List Char}
    (hc : isNameStartC c = true) (hn'w : n'.all isWordC = true)
    (hb : hasSub [')', ';'] b = false) :
    matchNameBody ((c :: n') ++ ' ' :: '(' :: (b ++ ')' :: ';' :: tail)) =
      some (c :: n', b, tail) := by
  have hcw : isWordC c = true := nameStart_word hc
  have e1 : skipOpt '`' ((c :: n') ++ ' ' :: '(' :: (b ++ ')' :: ';' :: tail)) =
      c :: (n' ++ ' ' :: '(' :: (b ++ ')' :: ';' :: tail)) := by
    rw [List.cons_append, skipOpt, if_neg (by simp [word_ne_backtick hcw])]
  have e2 : takeName (c :: (n' ++ ' ' :: '(' :: (b ++ ')' :: ';' :: tail))) =
      (c :: n', ' ' :: '(' :: (b ++ ')' :: ';' :: tail)) := by
    rw [takeName, if_pos hc, takeWhileAppendAll hn'w, dropWhileAppendAll hn'w,
      show (' ' :: '(' :: (b ++ ')' :: ';' :: tail)).takeWhile isWordC = [] from rfl,
      show (' ' :: '(' :: (b ++ ')' :: ';' :: tail)).dropWhile isWordC =
        ' ' :: '(' :: (b ++ ')' :: ';' :: tail) from rfl,
      List.append_nil]
  rw [matchNameBody, e1, e2]
  show (match wsStar (skipOpt '`' (' ' :: '(' :: (b ++ ')' :: ';' :: tail))) with
        | '(' :: l5 => (splitFirst2 ')' ';' l5).map (fun p => ((c :: n'), p.1, p.2))
        | _ => none) = some (c :: n', b, tail)
  rw [show wsStar (skipOpt '`' (' ' :: '(' :: (b ++ ')' :: ';' :: tail))) =
      '(' :: (b ++ ')' :: ';' :: tail) from rfl]
  show (splitFirst2 ')' ';' (b ++ ')' :: ';' :: tail)).map
      (fun p => ((c :: n'), p.1, p.2)) = some (c :: n', b, tail)
  rw [splitFirst2_exact hb]
  rfl

theorem matchAfterTable_render {n b tail : List Char} (hn : nameOk n = true)
    (hb : hasSub [')', ';'] b = false) :
    matchAfterTable (n ++ ' ' :: '(' :: (b ++ ')' :: ';' :: tail)) =
      some (n, b, tail) := by
  have hword : n.all isWordC = true := nameOk_all_word hn
  have hne : n ≠ [] := by
    cases n with
    | nil => exact absurd hn (by decide)
    | cons c r => simp
  rw [matchAfterTable, tryINE_words hne hword]
  cases n with
  | nil => exact absurd hn (by decide)
  | cons c n' =>
    have hc : isNameStartC c = true := by
      simp only [nameOk, Bool.and_eq_true] at hn; exact hn.1
    have hn'w : n'.all isWordC = true := by
      simp only [nameOk, Bool.and_eq_true] at hn; exact hn.2
    show matchNameBody ((c :: n') ++ ' ' :: '(' :: (b ++ ')' :: ';' :: tail)) =
      some (c :: n', b, tail)
    exact matchNameBody_render hc hn'w hb

/-- The full CREATE TABLE regex matches a rendered statement at its start,
capturing exactly its name and body. -/
theorem matchCreateAt_header {n b z : List Char} (hn : nameOk n = true)
    (hb : hasSub [')', ';'] b = false) :
    matchCreateAt ("CREATE TABLE ".toList ++ (n ++ ' ' :: '(' :: (b ++ ')' :: ';' :: z)))
      = some (n, b, z) := by
  have hstep : matchCreateAt
      ("CREATE TABLE ".toList ++ (n ++ ' ' :: '(' :: (b ++ ')' :: ';' :: z)))
      = matchAfterTable ((n ++ ' ' :: '(' :: (b ++ ')' :: ';' :: z)).dropWhile isWsC) := rfl
  rw [hstep]
  cases n with
  | nil => exact absurd hn (by decide)
  | cons c n' =>
    have hcw : isWordC c = true := nameStart_word (by
      simp only [nameOk, Bool.and_eq_true] at hn; exact hn.1)
    rw [List.cons_append, List.dropWhile_cons, if_neg (by simp [word_not_ws hcw])]
    exact matchAfterTable_render hn hb

theorem firstCreateMatch_of_matchAt {cs : List Char}
    {x : List Char × List Char × List Char} (h : matchCreateAt cs = some x) :
    firstCreateMatch cs = some x := by
  cases cs with
  | nil =>
    rw [show matchCreateAt ([] : List Char) = none from rfl] at h
    exact absurd h (by simp)
  | cons c cs' => rw [firstCreateMatch, h]

theorem scanCreates_cons {fuel : Nat} {cs n b rest : List Char}
    (h : firstCreateMatch cs = some (n, b, rest)) :
    scanCreates (fuel + 1) cs = (n, b) :: scanCreates fuel rest := by
  rw [scanCreates, h]

theorem firstCreateMatch_nl (cs : List Char) :
    firstCreateMatch ('\n' :: cs) = firstCreateMatch cs := by
  rw [firstCreateMatch, show matchCreateAt ('\n' :: cs) = none from rfl]

theorem scanCreates_nl (fuel : Nat) (cs : List Char) :
    scanCreates (fuel + 1) ('\n' :: cs) = scanCreates (fuel + 1) cs := by
  rw [scanCreates, scanCreates, firstCreateMatch_nl]

theorem renderDump_cons_length (n b : List Char) (tl : List (List Char × List Char)) :
    (renderDump ((n, b) :: tl)).length =
      18 + n.length + b.length + (renderDump tl).length := by
  simp only [renderDump, List.length_append]
  rw [show ("CREATE TABLE ".toList).length = 13 from rfl,
    show ((" (").toList).length = 2 from rfl,
    show ((");\n").toList).length = 3 from rfl]
  omega

/-- The global scanner recovers exactly the statements of a rendered dump,
in order, given enough fuel. -/
theorem scanCreates_render :
    ∀ (l : List (List Char × List Char)) (fuel : Nat),
      (renderDump l).length < fuel →
      (∀ p ∈ l, nameOk p.1 = true ∧ hasSub [')', ';'] p.2 = false) →
      scanCreates fuel (renderDump l) = l := by
  intro l
  induction l with
  | nil =>
    intro fuel hf _
    cases fuel with
    | zero => exact absurd hf (Nat.not_lt_zero _)
    | succ f => rfl
  | cons p tl ih =>
    obtain ⟨n, b⟩ := p
    intro fuel hf hall
    have hn : nameOk n = true := (hall (n, b) (List.mem_cons_self _ _)).1
    have hb : hasSub [')', ';'] b = false := (hall (n, b) (List.mem_cons_self _ _)).2
    cases fuel with
    | zero => exact absurd hf (Nat.not_lt_zero _)
    | succ f =>
      have hm : matchCreateAt (renderDump ((n, b) :: tl)) =
          some (n, b, '\n' :: renderDump tl) := matchCreateAt_header hn hb
      rw [scanCreates_cons (firstCreateMatch_of_matchAt hm)]
      congr 1
      cases f with
      | zero =>
        exfalso
        rw [renderDump_cons_length] at hf
        omega
      | succ f' =>
        rw [scanCreates_nl]
        exact ih (f' + 1) (by rw [renderDump_cons_length] at hf; omega)
          (fun q hq => hall q (List.mem_cons_of_mem _ hq))

/-- C4 (amended): for every dump consisting of CREATE TABLE statements whose
closing parenthesis is immediately followed by a semicolon (well-formed
names, bodies free of the closing sequence), the extractor produces exactly
one Table per occurrence, named after it and in source order. -/
theorem extractTables_C4 :
    ∀ (l : List (List Char × List Char)),
      (∀ p ∈ l, nameOk p.1 = true ∧ hasSub [')', ';'] p.2 = false) →
      (extractTablesL (renderDump l)).map TableSchema.name =
        l.map (fun p => p.1.asString) := by
  intro l h
  unfold extractTablesL
  rw [scanCreates_render l _ (Nat.lt_succ_self _) h]
  simp

/-- C4 witness: the amended claim at a two-table dump. -/
theorem extractTables_C4_witness :
    (extractTablesL (renderDump
      [("a".toList, "x INTEGER".toList),
       ("b".toList, "y INTEGER, z TEXT".toList)])).map TableSchema.name =
      ["a", "b"] :=
  (extractTables_C4
    [("a".toList, "x INTEGER".toList), ("b".toList, "y INTEGER, z TEXT".toList)]
    (by decide)).trans (by decide)

/-- C9 witness: the hypothesis clause of the unreachability theorem at the
concrete sampled value "0". -/
theorem inferColumnType_C9_witness :
    (jsIsNumeric "0" && "0" != "" && "0" != "null") = true ∧
    inferColumnType "flag" 2 "1" = inferColumnTypeNoBool "flag" 2 "1" :=
  ⟨inferColumnType_C9.1 "0" (Or.inl rfl), inferColumnType_C9.2.1 "flag" 2 "1"⟩

/-! C5 machinery: each replacement pass of the normalizer walks a family
statement chunk by chunk. The chunk-walk facts are definitional (each
matcher decides within the concrete chunk, given the comma or closing
parenthesis that always follows it), and an induction over the middle
columns glues them together. -/

/-- Gluing lemma: a matcher that walks both rendered column forms without
net effect maps the columns-plus-tail region to the columns plus the
rewritten tail, with exact fuel accounting. -/
theorem replaceG_c5Cols (m : List Char → Option (List Char × List Char))
    (T Tres : List Char) (K : Nat)
    (hbase : replaceG m K T = Tres)
    (hp1 : ∀ (n : Nat) (Y : List Char),
      replaceG m (n + 14) (", `price` REAL".toList ++ (',' :: Y)) =
        ", `price` REAL".toList ++ replaceG m n (',' :: Y))
    (hp2 : ∀ n : Nat,
      replaceG m (n + 14) (", `price` REAL".toList ++ T) =
        ", `price` REAL".toList ++ replaceG m n T)
    (hq1 : ∀ (n : Nat) (Y : List Char),
      replaceG m (n + 15) (", `qty` INTEGER".toList ++ (',' :: Y)) =
        ", `qty` INTEGER".toList ++ replaceG m n (',' :: Y))
    (hq2 : ∀ n : Nat,
      replaceG m (n + 15) (", `qty` INTEGER".toList ++ T) =
        ", `qty` INTEGER".toList ++ replaceG m n T) :
    ∀ cols : List C5Col,
      replaceG m ((c5Cols cols).length + K) (c5Cols cols ++ T) =
        c5Cols cols ++ Tres := by
  intro cols
  induction cols with
  | nil =>
    simp only [c5Cols, List.length_nil, Nat.zero_add, List.nil_append]
    exact hbase
  | cons a tl ih =>
    cases a with
    | priceReal =>
      simp only [c5Cols, renderC5Col, List.append_assoc]
      rw [show (", `price` REAL".toList ++ c5Cols tl).length + K
            = ((c5Cols tl).length + K) + 14 from by
          have hA : (", `price` REAL".toList).length = 14 := rfl
          simp only [List.length_append, hA]
          omega]
      cases tl with
      | nil =>
        simp only [c5Cols, List.length_nil, Nat.zero_add, List.nil_append]
        rw [hp2 K, hbase]
      | cons b tl2 =>
        obtain ⟨Y, hY⟩ : ∃ Y, c5Cols (b :: tl2) ++ T = ',' :: Y := by
          cases b <;> exact ⟨_, rfl⟩
        rw [hY, hp1, ← hY]
        exact congrArg (fun z => ", `price` REAL".toList ++ z) ih
    | qtyInt =>
      simp only [c5Cols, renderC5Col, List.append_assoc]
      rw [show (", `qty` INTEGER".toList ++ c5Cols tl).length + K
            = ((c5Cols tl).length + K) + 15 from by
          have hA : (", `qty` INTEGER".toList).length = 15 := rfl
          simp only [List.length_append, hA]
          omega]
      cases tl with
      | nil =>
        simp only [c5Cols, List.length_nil, Nat.zero_add, List.nil_append]
        rw [hq2 K, hbase]
      | cons b tl2 =>
        obtain ⟨Y, hY⟩ : ∃ Y, c5Cols (b :: tl2) ++ T = ',' :: Y := by
          cases b <;> exact ⟨_, rfl⟩
        rw [hY, hq1, ← hY]
        exact congrArg (fun z => ", `qty` INTEGER".toList ++ z) ih

/-- A pass that fires nowhere on a pre-collapse family statement is the
identity on it. -/
theorem c5_skip0 (m : List Char → Option (List Char × List Char))
    (hnil : runReplace m (c5Head0 ++ (c5Cols [] ++ c5Tail)) =
      c5Head0 ++ (c5Cols [] ++ c5Tail))
    (hH : ∀ (n : Nat) (Y : List Char),
      replaceG m (n + 56) (c5Head0 ++ (',' :: Y)) =
        c5Head0 ++ replaceG m n (',' :: Y))
    (hbase : replaceG m 22 c5Tail = c5Tail)
    (hp1 : ∀ (n : Nat) (Y : List Char),
      replaceG m (n + 14) (", `price` REAL".toList ++ (',' :: Y)) =
        ", `price` REAL".toList ++ replaceG m n (',' :: Y))
    (hp2 : ∀ n : Nat,
      replaceG m (n + 14) (", `price` REAL".toList ++ c5Tail) =
        ", `price` REAL".toList ++ replaceG m n c5Tail)
    (hq1 : ∀ (n : Nat) (Y : List Char),
      replaceG m (n + 15) (", `qty` INTEGER".toList ++ (',' :: Y)) =
        ", `qty` INTEGER".toList ++ replaceG m n (',' :: Y))
    (hq2 : ∀ n : Nat,
      replaceG m (n + 15) (", `qty` INTEGER".toList ++ c5Tail) =
        ", `qty` INTEGER".toList ++ replaceG m n c5Tail) :
    ∀ cols : List C5Col,
      runReplace m (c5Head0 ++ (c5Cols cols ++ c5Tail)) =
        c5Head0 ++ (c5Cols cols ++ c5Tail) := by
  intro cols
  cases cols with
  | nil => exact hnil
  | cons a tl =>
    unfold runReplace
    rw [show (c5Head0 ++ (c5Cols (a :: tl) ++ c5Tail)).length + 1
          = (((c5Cols (a :: tl)).length + 22) + 56) from by
        have h1 : c5Head0.length = 56 := rfl
        have h2 : c5Tail.length = 21 := rfl
        simp only [List.length_append, h1, h2]
        omega]
    obtain ⟨Y, hY⟩ : ∃ Y, c5Cols (a :: tl) ++ c5Tail = ',' :: Y := by
      cases a <;> exact ⟨_, rfl⟩
    rw [hY, hH, ← hY]
    exact congrArg (fun z => c5Head0 ++ z)
      (replaceG_c5Cols m c5Tail c5Tail 22 hbase hp1 hp2 hq1 hq2 (a :: tl))

/-- A pass that fires nowhere on a fully-normalized family statement is the
identity on it. -/
theorem c5_skip1 (m : List Char → Option (List Char × List Char))
    (hnil : runReplace m (c5Head1 ++ (c5Cols [] ++ [')'])) =
      c5Head1 ++ (c5Cols [] ++ [')']))
    (hH : ∀ (n : Nat) (Y : List Char),
      replaceG m (n + 58) (c5Head1 ++ (',' :: Y)) =
        c5Head1 ++ replaceG m n (',' :: Y))
    (hbase : replaceG m 2 [')'] = [')'])
    (hp1 : ∀ (n : Nat) (Y : List Char),
      replaceG m (n + 14) (", `price` REAL".toList ++ (',' :: Y)) =
        ", `price` REAL".toList ++ replaceG m n (',' :: Y))
    (hp2 : ∀ n : Nat,
      replaceG m (n + 14) (", `price` REAL".toList ++ [')']) =
        ", `price` REAL".toList ++ replaceG m n [')'])
    (hq1 : ∀ (n : Nat) (Y : List Char),
      replaceG m (n + 15) (", `qty` INTEGER".toList ++ (',' :: Y)) =
        ", `qty` INTEGER".toList ++ replaceG m n (',' :: Y))
    (hq2 : ∀ n : Nat,
      replaceG m (n + 15) (", `qty` INTEGER".toList ++ [')']) =
        ", `qty` INTEGER".toList ++ replaceG m n [')']) :
    ∀ cols : List C5Col,
      runReplace m (c5Head1 ++ (c5Cols cols ++ [')'])) =
        c5Head1 ++ (c5Cols cols ++ [')']) := by
  intro cols
  cases cols with
  | nil => exact hnil
  | cons a tl =>
    unfold runReplace
    rw [show (c5Head1 ++ (c5Cols (a :: tl) ++ [')'])).length + 1
          = (((c5Cols (a :: tl)).length + 2) + 58) from by
        have h1 : c5Head1.length = 58 := rfl
        have h2 : ([')'] : List Char).length = 1 := rfl
        simp only [List.length_append, h1, h2]
        omega]
    obtain ⟨Y, hY⟩ : ∃ Y, c5Cols (a :: tl) ++ [')'] = ',' :: Y := by
      cases a <;> exact ⟨_, rfl⟩
    rw [hY, hH, ← hY]
    exact congrArg (fun z => c5Head1 ++ z)
      (replaceG_c5Cols m [')'] [')'] 2 hbase hp1 hp2 hq1 hq2 (a :: tl))

theorem c5_p1 : ∀ cols : List C5Col,
    runReplace mEngine (c5Head0 ++ (c5Cols cols ++ c5Tail)) =
      c5Head0 ++ (c5Cols cols ++ c5Tail) :=
  c5_skip0 mEngine rfl (fun _ _ => rfl) rfl (fun _ _ => rfl) (fun _ => rfl)
    (fun _ _ => rfl) (fun _ => rfl)

theorem c5_p2 : ∀ cols : List C5Col,
    runReplace mCharset (c5Head0 ++ (c5Cols cols ++ c5Tail)) =
      c5Head0 ++ (c5Cols cols ++ c5Tail) :=
  c5_skip0 mCharset rfl (fun _ _ => rfl) rfl (fun _ _ => rfl) (fun _ => rfl)
    (fun _ _ => rfl) (fun _ => rfl)

theorem c5_p3 : ∀ cols : List C5Col,
    runReplace mAutoIncEq (c5Head0 ++ (c5Cols cols ++ c5Tail)) =
      c5Head0 ++ (c5Cols cols ++ c5Tail) :=
  c5_skip0 mAutoIncEq rfl (fun _ _ => rfl) rfl (fun _ _ => rfl) (fun _ => rfl)
    (fun _ _ => rfl) (fun _ => rfl)

theorem c5_p4 : ∀ cols : List C5Col,
    runReplace (mTypeParen "int".toList "INTEGER".toList)
        (c5Head0 ++ (c5Cols cols ++ c5Tail)) =
      c5Head0 ++ (c5Cols cols ++ c5Tail) :=
  c5_skip0 (mTypeParen "int".toList "INTEGER".toList) rfl (fun _ _ => rfl) rfl
    (fun _ _ => rfl) (fun _ => rfl) (fun _ _ => rfl) (fun _ => rfl)

theorem c5_p5 : ∀ cols : List C5Col,
    runReplace (mTypeParen "tinyint".toList "INTEGER".toList)
        (c5Head0 ++ (c5Cols cols ++ c5Tail)) =
      c5Head0 ++ (c5Cols cols ++ c5Tail) :=
  c5_skip0 (mTypeParen "tinyint".toList "INTEGER".toList) rfl (fun _ _ => rfl) rfl
    (fun _ _ => rfl) (fun _ => rfl) (fun _ _ => rfl) (fun _ => rfl)

theorem c5_p6 : ∀ cols : List C5Col,
    runReplace (mTypeParen "varchar".toList "TEXT".toList)
        (c5Head0 ++ (c5Cols cols ++ c5Tail)) =
      c5Head0 ++ (c5Cols cols ++ c5Tail) :=
  c5_skip0 (mTypeParen "varchar".toList "TEXT".toList) rfl (fun _ _ => rfl) rfl
    (fun _ _ => rfl) (fun _ => rfl) (fun _ _ => rfl) (fun _ => rfl)

theorem c5_p7 : ∀ cols : List C5Col,
    runReplace (mTypeParen "char".toList "TEXT".toList)
        (c5Head0 ++ (c5Cols cols ++ c5Tail)) =
      c5Head0 ++ (c5Cols cols ++ c5Tail) :=
  c5_skip0 (mTypeParen "char".toList "TEXT".toList) rfl (fun _ _ => rfl) rfl
    (fun _ _ => rfl) (fun _ => rfl) (fun _ _ => rfl) (fun _ => rfl)

theorem c5_p8 : ∀ cols : List C5Col,
    runReplace (mLit "text".toList "TEXT".toList)
        (c5Head0 ++ (c5Cols cols ++ c5Tail)) =
      c5Head0 ++ (c5Cols cols ++ c5Tail) :=
  c5_skip0 (mLit "text".toList "TEXT".toList) rfl (fun _ _ => rfl) rfl
    (fun _ _ => rfl) (fun _ => rfl) (fun _ _ => rfl) (fun _ => rfl)

theorem c5_p9 : ∀ cols : List C5Col,
    runReplace (mLit "datetime".toList "TEXT".toList)
        (c5Head0 ++ (c5Cols cols ++ c5Tail)) =
      c5Head0 ++ (c5Cols cols ++ c5Tail) :=
  c5_skip0 (mLit "datetime".toList "TEXT".toList) rfl (fun _ _ => rfl) rfl
    (fun _ _ => rfl) (fun _ => rfl) (fun _ _ => rfl) (fun _ => rfl)

theorem c5_p10 : ∀ cols : List C5Col,
    runReplace (mLit "timestamp".toList "TEXT".toList)
        (c5Head0 ++ (c5Cols cols ++ c5Tail)) =
      c5Head0 ++ (c5Cols cols ++ c5Tail) :=
  c5_skip0 (mLit "timestamp".toList "TEXT".toList) rfl (fun _ _ => rfl) rfl
    (fun _ _ => rfl) (fun _ => rfl) (fun _ _ => rfl) (fun _ => rfl)

/-- The collapse pass rewrites exactly the backticked AUTO_INCREMENT
declaration of a family statement and leaves everything else in place. -/
theorem c5_collapse : ∀ cols : List C5Col,
    runReplace mCollapse (c5Head0 ++ (c5Cols cols ++ c5Tail)) =
      c5Head1 ++ (c5Cols cols ++ c5Tail) := by
  intro cols
  cases cols with
  | nil => rfl
  | cons a tl =>
    unfold runReplace
    rw [show (c5Head0 ++ (c5Cols (a :: tl) ++ c5Tail)).length + 1
          = (((c5Cols (a :: tl)).length + 57) + 21) from by
        have h1 : c5Head0.length = 56 := rfl
        have h2 : c5Tail.length = 21 := rfl
        simp only [List.length_append, h1, h2]
        omega]
    obtain ⟨Y, hY⟩ : ∃ Y, c5Cols (a :: tl) ++ c5Tail = ',' :: Y := by
      cases a <;> exact ⟨_, rfl⟩
    have hH : ∀ (n : Nat) (Z : List Char),
        replaceG mCollapse (n + 21) (c5Head0 ++ (',' :: Z)) =
          c5Head1 ++ replaceG mCollapse n (',' :: Z) := fun _ _ => rfl
    rw [hY, hH, ← hY]
    exact congrArg (fun z => c5Head1 ++ z)
      (replaceG_c5Cols mCollapse c5Tail c5Tail 57 rfl (fun _ _ => rfl)
        (fun _ => rfl) (fun _ _ => rfl) (fun _ => rfl) (a :: tl))

/-- After the collapse, the statement contains PRIMARY KEY AUTOINCREMENT,
so the guard of the constraint-removal pass is armed. -/
theorem c5_guard (Y : List Char) :
    hasSub "PRIMARY KEY AUTOINCREMENT".toList (c5Head1 ++ Y) = true := rfl

/-- The removal pass deletes exactly the trailing comma-preceded separate
PRIMARY KEY constraint of a collapsed family statement. -/
theorem c5_pk : ∀ cols : List C5Col,
    runReplace mPkConstraint (c5Head1 ++ (c5Cols cols ++ c5Tail)) =
      c5Head1 ++ (c5Cols cols ++ [')']) := by
  intro cols
  cases cols with
  | nil => rfl
  | cons a tl =>
    unfold runReplace
    rw [show (c5Head1 ++ (c5Cols (a :: tl) ++ c5Tail)).length + 1
          = (((c5Cols (a :: tl)).length + 22) + 58) from by
        have h1 : c5Head1.length = 58 := rfl
        have h2 : c5Tail.length = 21 := rfl
        simp only [List.length_append, h1, h2]
        omega]
    obtain ⟨Y, hY⟩ : ∃ Y, c5Cols (a :: tl) ++ c5Tail = ',' :: Y := by
      cases a <;> exact ⟨_, rfl⟩
    have hH : ∀ (n : Nat) (Z : List Char),
        replaceG mPkConstraint (n + 58) (c5Head1 ++ (',' :: Z)) =
          c5Head1 ++ replaceG mPkConstraint n (',' :: Z) := fun _ _ => rfl
    rw [hY, hH, ← hY]
    exact congrArg (fun z => c5Head1 ++ z)
      (replaceG_c5Cols mPkConstraint c5Tail [')'] 22 rfl (fun _ _ => rfl)
        (fun _ => rfl) (fun _ _ => rfl) (fun _ => rfl) (a :: tl))

theorem c5_p13 : ∀ cols : List C5Col,
    runReplace (mLit "AUTO_INCREMENT".toList "AUTOINCREMENT".toList)
        (c5Head1 ++ (c5Cols cols ++ [')'])) =
      c5Head1 ++ (c5Cols cols ++ [')']) :=
  c5_skip1 (mLit "AUTO_INCREMENT".toList "AUTOINCREMENT".toList) rfl
    (fun _ _ => rfl) rfl (fun _ _ => rfl) (fun _ => rfl) (fun _ _ => rfl)
    (fun _ => rfl)

theorem c5_p14 : ∀ cols : List C5Col,
    runReplace mCommaParen (c5Head1 ++ (c5Cols cols ++ [')'])) =
      c5Head1 ++ (c5Cols cols ++ [')']) :=
  c5_skip1 mCommaParen rfl (fun _ _ => rfl) rfl (fun _ _ => rfl) (fun _ => rfl)
    (fun _ _ => rfl) (fun _ => rfl)

theorem c5_p15 : ∀ cols : List C5Col,
    runReplace mWsCollapse (c5Head1 ++ (c5Cols cols ++ [')'])) =
      c5Head1 ++ (c5Cols cols ++ [')']) :=
  c5_skip1 mWsCollapse rfl (fun _ _ => rfl) rfl (fun _ _ => rfl) (fun _ => rfl)
    (fun _ _ => rfl) (fun _ => rfl)

/-- A list with non-whitespace first and last characters is unchanged by
the final trim. -/
theorem trimL_id_of (l : List Char) (c d : Char) (t : List Char)
    (hc : l = c :: t) (hcw : isWsC c = false)
    (hd : l.getLast? = some d) (hdw : isWsC d = false) :
    trimL l = l := by
  have h1 : l.dropWhile isWsC = l := by
    rw [hc]
    exact List.dropWhile_cons_of_neg (by simp [hcw])
  unfold trimL
  rw [h1]
  have h2 : l.reverse.head? = some d := by
    rw [List.head?_reverse]
    exact hd
  cases hrev : l.reverse with
  | nil =>
    rw [hrev] at h2
    simp at h2
  | cons e r =>
    rw [hrev] at h2
    have he : e = d := by
      simp only [List.head?_cons, Option.some.injEq] at h2
      exact h2
    subst he
    have hdrop : List.dropWhile isWsC (e :: r) = e :: r :=
      List.dropWhile_cons_of_neg (by simp [hdw])
    rw [hdrop, ← hrev, List.reverse_reverse]

/-- The final trim leaves a normalized family statement unchanged. -/
theorem c5_trim (cols : List C5Col) :
    trimL (c5Head1 ++ (c5Cols cols ++ [')'])) =
      c5Head1 ++ (c5Cols cols ++ [')']) := by
  refine trimL_id_of _ 'C' ')' _ rfl rfl ?_ rfl
  rw [← List.append_assoc]
  exact List.getLast?_concat _

/-- End-to-end: the normalizer maps every family statement to the expected
collapsed form. -/
theorem c5_convert (cols : List C5Col) :
    convertL (c5Head0 ++ (c5Cols cols ++ c5Tail)) =
      c5Head1 ++ (c5Cols cols ++ [')']) := by
  simp only [convertL]
  rw [c5_p1 cols, c5_p2 cols, c5_p3 cols, c5_p4 cols, c5_p5 cols, c5_p6 cols,
    c5_p7 cols, c5_p8 cols, c5_p9 cols, c5_p10 cols, c5_collapse cols,
    c5_guard, if_pos rfl, c5_pk cols, c5_p13 cols, c5_p14 cols, c5_p15 cols]
  exact c5_trim cols

/-- The expected output contains exactly one occurrence of the collapsed
declaration. -/
theorem c5_count (cols : List C5Col) :
    countOccCi "`id` INTEGER PRIMARY KEY AUTOINCREMENT".toList
      (c5Expected cols).toList = 1 := by
  show countOccCi "`id` INTEGER PRIMARY KEY AUTOINCREMENT".toList
    (c5Head1 ++ (c5Cols cols ++ [')'])) = 1
  have hH : ∀ Y, countOccCi "`id` INTEGER PRIMARY KEY AUTOINCREMENT".toList
      (c5Head1 ++ Y) =
        countOccCi "`id` INTEGER PRIMARY KEY AUTOINCREMENT".toList Y + 1 :=
    fun _ => rfl
  rw [hH]
  have hz : ∀ cs : List C5Col,
      countOccCi "`id` INTEGER PRIMARY KEY AUTOINCREMENT".toList
        (c5Cols cs ++ [')']) = 0 := by
    intro cs
    induction cs with
    | nil => rfl
    | cons a tl ih =>
      have ha : ∀ Y, countOccCi "`id` INTEGER PRIMARY KEY AUTOINCREMENT".toList
          (renderC5Col a ++ Y) =
            countOccCi "`id` INTEGER PRIMARY KEY AUTOINCREMENT".toList Y := by
        cases a <;> exact fun _ => rfl
      rw [show c5Cols (a :: tl) ++ [')'] =
            renderC5Col a ++ (c5Cols tl ++ [')']) from by
          simp only [c5Cols, List.append_assoc]]
      rw [ha]
      exact ih
  rw [hz]

/-- The expected output contains no separate PRIMARY KEY ( ... ) constraint
pattern. -/
theorem c5_nopk (cols : List C5Col) :
    hasPKParenConstraint (c5Expected cols).toList = false := by
  show hasPKParenConstraint (c5Head1 ++ (c5Cols cols ++ [')'])) = false
  have hH : ∀ Y, hasPKParenConstraint (c5Head1 ++ Y) = hasPKParenConstraint Y :=
    fun _ => rfl
  rw [hH]
  induction cols with
  | nil => rfl
  | cons a tl ih =>
    have ha : ∀ Y, hasPKParenConstraint (renderC5Col a ++ Y) =
        hasPKParenConstraint Y := by
      cases a <;> exact fun _ => rfl
    rw [show c5Cols (a :: tl) ++ [')'] =
          renderC5Col a ++ (c5Cols tl ++ [')']) from by
        simp only [c5Cols, List.append_assoc]]
    rw [ha]
    exact ih

/-- C5 (amended): for every statement of the dialect-scenario family — the
backticked declaration `id` INTEGER NOT NULL AUTO_INCREMENT, any sequence
of normalized middle columns, and a separate PRIMARY KEY (`id`) table
constraint preceded by a comma — the normalizer's output contains a single
`id` INTEGER PRIMARY KEY AUTOINCREMENT column declaration and no separate
PRIMARY KEY( ... ) constraint. The comma before the constraint is
essential: the counterexample shows a constraint placed before any comma
surviving normalization. -/
theorem convertMySQL_C5 (cols : List C5Col) :
    convertMySQLToSQLite (c5Stmt cols) = c5Expected cols ∧
    countOccCi "`id` INTEGER PRIMARY KEY AUTOINCREMENT".toList
      (convertMySQLToSQLite (c5Stmt cols)).toList = 1 ∧
    hasPKParenConstraint (convertMySQLToSQLite (c5Stmt cols)).toList = false := by
  have h1 : convertMySQLToSQLite (c5Stmt cols) = c5Expected cols := by
    show (convertL (c5Head0 ++ (c5Cols cols ++ c5Tail))).asString = c5Expected cols
    rw [c5_convert cols]
    rfl
  refine ⟨h1, ?_, ?_⟩
  · rw [h1]
    exact c5_count cols
  · rw [h1]
    exact c5_nopk cols

/-- C5 witness: the family theorem instantiated at two middle columns gives
the spec's concrete dialect-scenario behaviour. -/
theorem convertMySQL_C5_witness :
    c5Stmt [C5Col.priceReal, C5Col.qtyInt] =
      "CREATE TABLE users (`id` INTEGER NOT NULL AUTO_INCREMENT, `price` REAL, `qty` INTEGER, PRIMARY KEY (`id`))" ∧
    convertMySQLToSQLite (c5Stmt [C5Col.priceReal, C5Col.qtyInt]) =
      "CREATE TABLE users (`id` INTEGER PRIMARY KEY AUTOINCREMENT, `price` REAL, `qty` INTEGER)" :=
  ⟨rfl, ((convertMySQL_C5 [C5Col.priceReal, C5Col.qtyInt]).1).trans rfl⟩

/-- C5 counterexample: a statement containing the backticked declaration
and a separate PRIMARY KEY (`id`) constraint that is listed first in the
body, before any comma. The collapse fires and the guard is armed, but the
removal pattern ,\s*PRIMARY KEY\s*\([^)]+\) requires a comma before the
constraint, so the separate constraint survives normalization and the
claim's output condition fails. -/
theorem convertMySQL_C5_cex :
    hasSub "`id` INTEGER NOT NULL AUTO_INCREMENT".toList
      "CREATE TABLE t5 (PRIMARY KEY (`id`), `id` INTEGER NOT NULL AUTO_INCREMENT)".toList = true ∧
    hasSub "PRIMARY KEY (`id`)".toList
      "CREATE TABLE t5 (PRIMARY KEY (`id`), `id` INTEGER NOT NULL AUTO_INCREMENT)".toList = true ∧
    convertMySQLToSQLite
        "CREATE TABLE t5 (PRIMARY KEY (`id`), `id` INTEGER NOT NULL AUTO_INCREMENT)" =
      "CREATE TABLE t5 (PRIMARY KEY (`id`), `id` INTEGER PRIMARY KEY AUTOINCREMENT)" ∧
    hasPKParenConstraint
      (convertMySQLToSQLite
        "CREATE TABLE t5 (PRIMARY KEY (`id`), `id` INTEGER NOT NULL AUTO_INCREMENT)").toList = true := by
  exact ⟨by decide, by decide, by decide, by decide⟩
